import Mathlib

/-!
Verification of the ClawRouter routing core against its specification.

The TypeScript sources under scrutiny are shallowly embedded below:
  * `src/router/request-fingerprint.ts` — fingerprint generation and similarity;
  * `src/router/rules.ts`               — the weighted rule classifier with hysteresis;
  * `src/router/score-cache.ts`         — the LRU+TTL score cache with jitter locks;
  * `src/router/index.ts`               — the route orchestrator;
  * the session store (degradation / recovery).

Conventions of the embedding:
  * JS numbers are modelled exactly: scores, weights, boundaries and metric
    averages as `ℚ`, token counts and timestamps as `ℕ`; the sigmoid
    confidence, which involves `Math.exp`, lives in `ℝ`.
  * JS `Map` objects are association lists in insertion order (`Map.set` on an
    existing key updates in place, otherwise appends), matching JS iteration
    order semantics.
  * `Date.now()` and `Math.random() < 0.01` are threaded as explicit `now` and
    `rand` arguments.
  * JS regular expressions are compiled by hand to decidable scanners over
    `List Char`; each scanner is annotated with the regex it implements.
-/

namespace ClawRouter

section RatKernelEval

/- `Rat.add`, `Rat.mul`, `Rat.sub` and `Rat.inv` ship `@[irreducible]`, which
blocks `decide` from evaluating concrete rational arithmetic; the kernel
itself reduces them fine.  Locally restore semireducibility so concrete
states evaluate. -/
attribute [local semireducible] Rat.add Rat.mul Rat.sub Rat.inv

/-! ## JS string primitives -/

/-- The apostrophe character, written via its code point. -/
def apos : Char := Char.ofNat 39

/-- JS `String.prototype.toLowerCase`, on the ASCII range (all keyword matching
in the sources is over ASCII or CJK text, which lowercasing leaves alone). -/
def jsToLower (s : String) : String :=
  String.mk (s.data.map Char.toLower)

/-- JS `String.prototype.includes`: substring containment. -/
def jsIncludes (s sub : String) : Bool :=
  decide (sub.data <:+: s.data)

/-- JS whitespace class `\s` (the code points JS regexes treat as whitespace). -/
def jsWhitespace (c : Char) : Bool :=
  c ∈ [' ', '\t', '\n', '\r', Char.ofNat 11, Char.ofNat 12,
       Char.ofNat 0xa0, Char.ofNat 0x1680, Char.ofNat 0x2028, Char.ofNat 0x2029,
       Char.ofNat 0x202f, Char.ofNat 0x205f, Char.ofNat 0x3000, Char.ofNat 0xfeff]
  || (0x2000 ≤ c.toNat && c.toNat ≤ 0x200a)

/-- JS line terminators (the characters `.` does not match). -/
def jsLineTerm (c : Char) : Bool :=
  c ∈ ['\n', '\r', Char.ofNat 0x2028, Char.ofNat 0x2029]

/-- JS word-character class `\w` = `[A-Za-z0-9_]`. -/
def jsWordChar (c : Char) : Bool :=
  ('a' ≤ c && c ≤ 'z') || ('A' ≤ c && c ≤ 'Z') || c.isDigit || c = '_'

/-- Scan a list, testing a position predicate `p prev rest` at every suffix
(`prev` is the character just before the suffix).  This is how a JS regex
`test` tries every start position. -/
def scanPos (p : Option Char → List Char → Bool) : Option Char → List Char → Bool
  | _, [] => false
  | prev, c :: rest => p prev (c :: rest) || scanPos p (some c) rest

/-- Whether `l` begins with the word `w` followed by a word boundary
(end of input or a non-word character). -/
def startsWordEnd (w : List Char) (l : List Char) : Bool :=
  w.isPrefixOf l &&
    (match l.drop w.length with
     | [] => true
     | c :: _ => ¬ jsWordChar c)

/-- Whether `l` begins with the word `w`, then `\s+`, then a predicate `q` on
the first character after the whitespace. -/
def startsWordWsChar (w : List Char) (q : Char → Bool) (l : List Char) : Bool :=
  w.isPrefixOf l &&
    (let r := l.drop w.length
     let ws := r.takeWhile jsWhitespace
     match r.drop ws.length with
     | [] => false
     | c :: _ => ¬ ws.isEmpty && q c)

/-! ## Fingerprinter: `extractFeatures` (request-fingerprint.ts lines 27-86) -/

/-- `/\bfunction\b|\bdef\s+\w+|\bclass\s+\w+/` — the first code pattern. -/
def codeRegex1 (l : List Char) : Bool :=
  scanPos (fun prev r =>
      (prev.all (fun c => ¬ jsWordChar c)) &&
        (startsWordEnd "function".data r
          || startsWordWsChar "def".data jsWordChar r
          || startsWordWsChar "class".data jsWordChar r))
    none l

/-- `/\{[\s\S]*?\}/`-style pair test: an opening character with the matching
closing character somewhere after it. -/
def pairRegex (o c : Char) (l : List Char) : Bool :=
  match l.dropWhile (· ≠ o) with
  | [] => false
  | _ :: rest => rest.contains c

/-- Rest of the input after the first occurrence of three consecutive
backticks, if any. -/
def afterTriple : List Char → Option (List Char)
  | '`' :: '`' :: '`' :: rest => some rest
  | _ :: rest => afterTriple rest
  | [] => none

/-- `/```[\s\S]*?```/`: two non-overlapping triple-backtick fences. -/
def fenceRegex (l : List Char) : Bool :=
  match afterTriple l with
  | some rest => (afterTriple rest).isSome
  | none => false

/-- `/`[^`]+`/`: an inline code span. -/
def inlineCodeRegex : List Char → Bool
  | [] => false
  | '`' :: rest =>
      (let nb := rest.takeWhile (· ≠ '`')
       ¬ nb.isEmpty && ¬ (rest.drop nb.length).isEmpty)
      || inlineCodeRegex rest
  | _ :: rest => inlineCodeRegex rest

/-- The six `codePatterns` of `extractFeatures`, tested on the raw text. -/
def anyCodePattern (s : String) : Bool :=
  codeRegex1 s.data || pairRegex '{' '}' s.data || pairRegex '[' ']' s.data
    || pairRegex '<' '>' s.data || fenceRegex s.data || inlineCodeRegex s.data

/-- The `reasoningWords` table of `extractFeatures`. -/
def fpReasoningWords : List String :=
  ["step", "prove", "explain", "why", "how", "分析", "证明", "解释", "步骤"]

/-- Chinese numeral-or-digit class `[一二三四五六七八九十\d]`. -/
def cjkNumChar (c : Char) : Bool :=
  c ∈ ['一', '二', '三', '四', '五', '六', '七', '八', '九', '十'] || c.isDigit

/-- `/\d+\s*[.\)．]/`: digits, optional whitespace, then `.`, `)` or `．`. -/
def numDotRegex (l : List Char) : Bool :=
  scanPos (fun _ r =>
      match r with
      | c :: rest =>
          c.isDigit &&
            (let r1 := rest.dropWhile Char.isDigit
             let r2 := r1.dropWhile jsWhitespace
             match r2 with
             | t :: _ => t ∈ ['.', ')', Char.ofNat 0xff0e]
             | [] => false)
      | [] => false)
    none l

/-- `/\bstep\s+\d+/i`, applied after lowercasing. -/
def stepNumRegex (l : List Char) : Bool :=
  scanPos (fun prev r =>
      (prev.all (fun c => ¬ jsWordChar c)) &&
        startsWordWsChar "step".data Char.isDigit r)
    none l

/-- `/第[一二三四五六七八九十\d]+步/`. -/
def diBuRegex (l : List Char) : Bool :=
  scanPos (fun _ r =>
      match r with
      | c :: rest =>
          c = '第' &&
            (let nums := rest.takeWhile cjkNumChar
             match rest.drop nums.length with
             | t :: _ => ¬ nums.isEmpty && t = '步'
             | [] => false)
      | [] => false)
    none l

/-- The four `multiStepPatterns` of `extractFeatures` (`步骤` is a plain
substring there). -/
def anyFpMultiStep (s : String) : Bool :=
  numDotRegex s.data || stepNumRegex (jsToLower s).data || diBuRegex s.data
    || jsIncludes s "步骤"

/-- Count of `?` plus `？` (the `/\?|？/g` match count). -/
def questionMarkCount (s : String) : ℕ :=
  s.data.countP (fun c => c = '?' || c = '？')

/-- `extractFeatures` (request-fingerprint.ts lines 27-86): structural feature
tags, pushed in source order. -/
def extractFeatures (text : String) : List String :=
  let lower := jsToLower text
  let f1 : List String := if anyCodePattern text then ["CODE"] else []
  let f2 : List String :=
    if fpReasoningWords.any (fun w => jsIncludes lower w) then ["REASONING"] else []
  let f3 : List String := if anyFpMultiStep text then ["MULTISTEP"] else []
  let qc := questionMarkCount text
  let f4 : List String := if 0 < qc then ["Q" ++ toString (min qc 3)] else []
  let tokenEstimate := (text.length + 3) / 4
  let f5 : List String :=
    if tokenEstimate < 50 then ["SHORT"]
    else if tokenEstimate < 200 then ["MEDIUM"]
    else if tokenEstimate < 1000 then ["LONG"]
    else ["XLONG"]
  f1 ++ f2 ++ f3 ++ f4 ++ f5

/-! ## Fingerprinter: `normalize` and `contentHash` (lines 91-119) -/

/-- The quote variants of `NORMALIZATION_PATTERNS.quotes`. -/
def quoteChars : List Char :=
  [Char.ofNat 0x201c, Char.ofNat 0x201d, Char.ofNat 0x2018, Char.ofNat 0x2019, apos]

/-- The decorative punctuation class `[!！\.。,，;；:]`. -/
def decorativeChars : List Char :=
  ['!', '！', '.', '。', ',', '，', ';', '；', ':']

/-- The Chinese punctuation class of `NORMALIZATION_PATTERNS.chinesePunct`. -/
def chinesePunctChars : List Char :=
  ['，', '。', '！', '？', '；', '：', Char.ofNat 0x201c, Char.ofNat 0x201d,
   Char.ofNat 0x2018, Char.ofNat 0x2019, '（', '）', '【', '】']

/-- The per-character map applied to `chinesePunct` matches (unmapped class
members fall back to a space). -/
def chinesePunctMap (c : Char) : Char :=
  if c = '，' then ',' else if c = '。' then '.'
  else if c = '！' then '!' else if c = '？' then '?'
  else if c = '；' then ';' else if c = '：' then ':'
  else if c = Char.ofNat 0x201c then '"' else if c = Char.ofNat 0x201d then '"'
  else if c = Char.ofNat 0x2018 then apos else if c = Char.ofNat 0x2019 then apos
  else if c = '（' then '(' else if c = '）' then ')'
  else if c = '【' then '[' else if c = '】' then ']'
  else ' '

/-- Run-collapsing worker: `inRun` records whether the previous character was
part of a run matched by `p`. -/
def collapseRunsAux (p : Char → Bool) (r : Char) : Bool → List Char → List Char
  | _, [] => []
  | inRun, c :: rest =>
      if p c then
        (if inRun then [] else [r]) ++ collapseRunsAux p r true rest
      else c :: collapseRunsAux p r false rest

/-- Replace every run of characters satisfying `p` by a single `r`
(`.replace(/[class]+/g, r)`). -/
def collapseRuns (p : Char → Bool) (r : Char) (l : List Char) : List Char :=
  collapseRunsAux p r false l

/-- JS `String.prototype.trim` (strips `\s` at both ends). -/
def jsTrim (l : List Char) : List Char :=
  ((l.dropWhile jsWhitespace).reverse.dropWhile jsWhitespace).reverse

/-- `normalize` (request-fingerprint.ts lines 91-107): whitespace collapse,
quote unification, decorative-punctuation stripping, Chinese-punctuation
folding, trim, lowercase — in source order. -/
def normalize (text : String) : String :=
  let s1 := collapseRuns jsWhitespace ' ' text.data
  let s2 := s1.map (fun c => if c ∈ quoteChars then '"' else c)
  let s3 := collapseRuns (· ∈ decorativeChars) ' ' s2
  let s4 := s3.map (fun c => if c ∈ chinesePunctChars then chinesePunctMap c else c)
  jsToLower (String.mk (jsTrim s4))

/-- `contentHash` (lines 113-119): the normalized text, truncated to
`first 100 + "..." + last 50` beyond 150 characters. -/
def contentHash (text : String) : String :=
  let normalized := normalize text
  if normalized.length ≤ 150 then normalized
  else
    String.mk (normalized.data.take 100) ++ "..."
      ++ String.mk (normalized.data.drop (normalized.length - 50))

/-- Lexicographic (code-point) order on character lists — the order JS
`Array.sort` applies to strings. -/
def lexLe : List Char → List Char → Bool
  | [], _ => true
  | _ :: _, [] => false
  | a :: as, b :: bs =>
      if a.toNat < b.toNat then true
      else if b.toNat < a.toNat then false
      else lexLe as bs

/-- Insert a string into a sorted list of strings (the feature tags are
pairwise distinct, so insertion sort agrees with JS `Array.sort`). -/
def insertSorted (a : String) : List String → List String
  | [] => [a]
  | b :: rest => if lexLe a.data b.data then a :: b :: rest else b :: insertSorted a rest

/-- Lexicographic string sort (models `features.sort()`). -/
def sortStrings : List String → List String
  | [] => []
  | a :: rest => insertSorted a (sortStrings rest)

/-- `generateFingerprint` (lines 125-136): sorted feature tags, content hash
and (truncated) system hash, joined with `|`. -/
def generateFingerprint (prompt : String) (systemPrompt : Option String) : String :=
  let features := extractFeatures prompt
  let content := contentHash prompt
  let sysHash :=
    match systemPrompt with
    | some s => String.mk ((contentHash s).data.take 50)
    | none => "none"
  String.intercalate "|" (sortStrings features)
    ++ "|" ++ content ++ "|" ++ sysHash

/-- Split a character list at every `|` (models `split('|')`;
`split('|', 2)` is this followed by `take 2`). -/
def splitBar : List Char → List (List Char)
  | [] => [[]]
  | c :: rest =>
      if c = '|' then [] :: splitBar rest
      else
        match splitBar rest with
        | h :: t => (c :: h) :: t
        | [] => [[c]]

/-- Positions of the zipped common prefix at which two strings differ
(the `diffCount` loop of `fingerprintsSimilar`). -/
def countDiffs (a b : List Char) : ℕ :=
  (a.zip b).countP (fun p => p.1 ≠ p.2)

/-- `fingerprintsSimilar` (request-fingerprint.ts lines 142-166).  Note the
faithful JS `split('|', 2)` semantics: the split is truncated to its first two
segments, so `features1` holds only the first feature tag and `content1` the
second segment (a further feature tag whenever the fingerprint has several). -/
def fingerprintsSimilar (fp1 fp2 : String) : Bool :=
  let p1 := ((splitBar fp1.data).map String.mk).take 2
  let p2 := ((splitBar fp2.data).map String.mk).take 2
  let features1 := p1.headD ""
  let features2 := p2.headD ""
  let content1 := (p1.drop 1).headD ""
  let content2 := (p2.drop 1).headD ""
  if features1 ≠ features2 then false
  else if content1 = content2 then true
  else
    let maxLen := max content1.length content2.length
    let minLen := min content1.length content2.length
    if decide ((minLen : ℚ) / (maxLen : ℚ) < 9 / 10) then false
    else
      let diffCount := countDiffs content1.data content2.data
        + (max content1.length content2.length - min content1.length content2.length)
      decide ((diffCount : ℚ) / (maxLen : ℚ) < 1 / 10)

/-- `getCacheKey` (lines 171-176) delegates to `generateFingerprint`. -/
def getCacheKey (prompt : String) (systemPrompt : Option String) : String :=
  generateFingerprint prompt systemPrompt

/-! ## Shared data model (router/types.ts) -/

/-- The four difficulty tiers. -/
inductive Tier where
  | SIMPLE
  | MEDIUM
  | COMPLEX
  | REASONING
deriving DecidableEq

/-- Index of a tier in the classifier's `tiers` array (its `findIndex`). -/
def tierIdx : Tier → ℕ
  | .SIMPLE => 0
  | .MEDIUM => 1
  | .COMPLEX => 2
  | .REASONING => 3

/-- The tier's name as JS template interpolation prints it. -/
def Tier.str : Tier → String
  | .SIMPLE => "SIMPLE"
  | .MEDIUM => "MEDIUM"
  | .COMPLEX => "COMPLEX"
  | .REASONING => "REASONING"

/-- `${tier}` for a `Tier | null` value. -/
def tierOptStr : Option Tier → String
  | some t => t.str
  | none => "null"

/-- A classifier output (`ScoringResult`): exact weighted score, tier (`none`
models `null`/ambiguous), sigmoid confidence, signal strings, agentic score. -/
structure ScoringResult where
  score : ℚ
  tier : Option Tier
  confidence : ℝ
  signals : List String
  agenticScore : ℚ

/-- The tier boundary triple of `ScoringConfig`. -/
structure TierBoundaries where
  simpleMedium : ℚ
  mediumComplex : ℚ
  complexReasoning : ℚ

/-- Token-count thresholds of the `tokenCount` dimension. -/
structure TokenThresholds where
  simple : ℕ
  complex : ℕ

/-- Keyword-count thresholds of `scoreKeywordMatch`. -/
structure KThresholds where
  low : ℕ
  high : ℕ

/-- The three candidate scores of `scoreKeywordMatch`. -/
structure MatchScores where
  none : ℚ
  low : ℚ
  high : ℚ

/-- `ScoringConfig`: per-dimension weights (a lookup that already absorbs the
source's `weights[d.name] ?? 0`), boundaries, thresholds, sigmoid parameters
and the keyword lists. -/
structure ScoringConfig where
  dimensionWeights : String → ℚ
  tierBoundaries : TierBoundaries
  tokenCountThresholds : TokenThresholds
  confidenceSteepness : ℚ
  confidenceThreshold : ℚ
  codeKeywords : List String
  reasoningKeywords : List String
  technicalKeywords : List String
  creativeKeywords : List String
  simpleKeywords : List String
  imperativeVerbs : List String
  constraintIndicators : List String
  outputFormatKeywords : List String
  referenceKeywords : List String
  negationKeywords : List String
  domainSpecificKeywords : List String
  agenticTaskKeywords : List String

/-! ## JS `Map` as an insertion-ordered association list -/

/-- `Map.get`. -/
def mapGet {V : Type} (m : List (String × V)) (k : String) : Option V :=
  (m.find? (fun kv => kv.1 == k)).map (·.2)

/-- `Map.set`: update in place when the key exists (JS keeps the original
insertion position), append otherwise. -/
def mapSet {V : Type} (m : List (String × V)) (k : String) (v : V) : List (String × V) :=
  if m.any (fun kv => kv.1 == k) then
    m.map (fun kv => if kv.1 == k then (k, v) else kv)
  else m ++ [(k, v)]

/-- `Map.delete`. -/
def mapDelete {V : Type} (m : List (String × V)) (k : String) : List (String × V) :=
  m.filter (fun kv => ¬ kv.1 == k)

/-! ## Classifier dimension scorers (rules.ts lines 88-250) -/

/-- A scored dimension. -/
structure DimensionScore where
  name : String
  score : ℚ
  signal : Option String
deriving DecidableEq

/-- `scoreTokenCount` (rules.ts lines 93-104). -/
def scoreTokenCount (estimatedTokens : ℕ) (thresholds : TokenThresholds) : DimensionScore :=
  if estimatedTokens < thresholds.simple then
    { name := "tokenCount", score := -1,
      signal := some ("short (" ++ toString estimatedTokens ++ " tokens)") }
  else if thresholds.complex < estimatedTokens then
    { name := "tokenCount", score := 1,
      signal := some ("long (" ++ toString estimatedTokens ++ " tokens)") }
  else { name := "tokenCount", score := 0, signal := none }

/-- `scoreKeywordMatch` (rules.ts lines 106-130): substring keyword counting
with a low/high threshold pair. -/
def scoreKeywordMatch (text : String) (keywords : List String) (name signalLabel : String)
    (thresholds : KThresholds) (scores : MatchScores) : DimensionScore :=
  let matched := keywords.filter (fun kw => jsIncludes text (jsToLower kw))
  if thresholds.high ≤ matched.length then
    { name, score := scores.high,
      signal := some (signalLabel ++ " (" ++ String.intercalate ", " (matched.take 3) ++ ")") }
  else if thresholds.low ≤ matched.length then
    { name, score := scores.low,
      signal := some (signalLabel ++ " (" ++ String.intercalate ", " (matched.take 3) ++ ")") }
  else { name, score := scores.none, signal := none }

/-- `/first.*then/i`: `first`, then `then` later on the same line (`.` does
not cross line terminators); the inputs are already lowercased. -/
def firstThenRegex (l : List Char) : Bool :=
  scanPos (fun _ r =>
      "first".data.isPrefixOf r &&
        decide ("then".data <:+: ((r.drop 5).takeWhile (fun c => ¬ jsLineTerm c))))
    none l

/-- `/step\s+\d+/i` (the rules.ts variant has no word boundary). -/
def ruleStepNumRegex (l : List Char) : Bool :=
  scanPos (fun _ r => startsWordWsChar "step".data Char.isDigit r) none l

/-- `/\d+[\.．]\s+/`: digits, a (full-width) dot, then at least one space. -/
def numDotWsRegex (l : List Char) : Bool :=
  scanPos (fun _ r =>
      match r with
      | c :: rest =>
          c.isDigit &&
            (match rest.dropWhile Char.isDigit with
             | d :: r2 =>
                 (d = '.' || d = Char.ofNat 0xff0e) &&
                   (match r2 with
                    | w :: _ => jsWhitespace w
                    | [] => false)
             | [] => false)
      | [] => false)
    none l

/-- `/步骤\s*[一二三四五六七八九十\d]+/`. -/
def buzhouNumRegex (l : List Char) : Bool :=
  scanPos (fun _ r =>
      "步骤".data.isPrefixOf r &&
        (match (r.drop 2).dropWhile jsWhitespace with
         | c :: _ => cjkNumChar c
         | [] => false))
    none l

/-- `/首先[\s\S]{1,80}然后/`: `首先`, a gap of 1 to 80 arbitrary characters,
then `然后`. -/
def shouxianRegex (l : List Char) : Bool :=
  scanPos (fun _ r =>
      "首先".data.isPrefixOf r &&
        decide ("然后".data <:+: (((r.drop 2).drop 1).take 81)))
    none l

/-- `/第[一二三四五六七八九十\d]+[、,]\s*第[一二三四五六七八九十\d]+/`. -/
def diPairRegex (l : List Char) : Bool :=
  scanPos (fun _ r =>
      match r with
      | c :: rest =>
          c = '第' &&
            (let nums := rest.takeWhile cjkNumChar
             ¬ nums.isEmpty &&
               (match rest.drop nums.length with
                | d :: r2 =>
                    (d = '、' || d = ',') &&
                      (match r2.dropWhile jsWhitespace with
                       | e :: r4 =>
                           e = '第' &&
                             (match r4 with
                              | f :: _ => cjkNumChar f
                              | [] => false)
                       | [] => false)
                | [] => false))
      | [] => false)
    none l

/-- Whether any of the seven `MULTI_STEP_PATTERNS` of rules.ts matches. -/
def multiStepHit (text : String) : Bool :=
  firstThenRegex text.data || ruleStepNumRegex text.data || numDotWsRegex text.data
    || diBuRegex text.data || buzhouNumRegex text.data || shouxianRegex text.data
    || diPairRegex text.data

/-- `scoreMultiStep` (rules.ts lines 151-157). -/
def scoreMultiStep (text : String) : DimensionScore :=
  if multiStepHit text then
    { name := "multiStepPatterns", score := 1/2, signal := some "multi-step" }
  else { name := "multiStepPatterns", score := 0, signal := none }

/-- Non-overlapping match count of `/怎么|如何|怎样/g` (alternatives tried in
source order at each position, scanning left to right). -/
def countCnQuestion : List Char → ℕ
  | '怎' :: '么' :: rest => 1 + countCnQuestion rest
  | '如' :: '何' :: rest => 1 + countCnQuestion rest
  | '怎' :: '样' :: rest => 1 + countCnQuestion rest
  | _ :: rest => countCnQuestion rest
  | [] => 0

/-- `scoreQuestionComplexity` (rules.ts lines 166-189), on the raw prompt. -/
def scoreQuestionComplexity (prompt : String) : DimensionScore :=
  let halfWidth := prompt.data.countP (· = '?')
  let fullWidth := prompt.data.countP (· = '？')
  let questionCount := halfWidth + fullWidth
  if 3 < questionCount then
    { name := "questionComplexity", score := 1/2,
      signal := some (toString questionCount ++ " questions") }
  else if questionCount = 0 ∧ 2 ≤ countCnQuestion prompt.data then
    { name := "questionComplexity", score := 1/2,
      signal := some ("multi-question (" ++ toString (countCnQuestion prompt.data)
        ++ " 怎么/如何/怎样)") }
  else { name := "questionComplexity", score := 0, signal := none }

/-- `scoreAgenticTask` (rules.ts lines 200-250): the dimension score together
with the out-of-band agentic score. -/
def scoreAgenticTask (text : String) (keywords : List String) : DimensionScore × ℚ :=
  let matched := keywords.filter (fun kw => jsIncludes text (jsToLower kw))
  let sig := String.intercalate ", " (matched.take 3)
  if 4 ≤ matched.length then
    ({ name := "agenticTask", score := 1, signal := some ("agentic (" ++ sig ++ ")") }, 1)
  else if 3 ≤ matched.length then
    ({ name := "agenticTask", score := 3/5, signal := some ("agentic (" ++ sig ++ ")") }, 3/5)
  else if 1 ≤ matched.length then
    ({ name := "agenticTask", score := 1/5,
       signal := some ("agentic-light (" ++ sig ++ ")") }, 1/5)
  else ({ name := "agenticTask", score := 0, signal := none }, 0)

/-- The lowercased `system + " " + prompt` concatenation scored by the
full-text dimensions. -/
def fullTextOf (prompt : String) (systemPrompt : Option String) : String :=
  jsToLower ((systemPrompt.getD "") ++ " " ++ prompt)

/-- The 15 dimension scores of `classifyByRules` (rules.ts lines 372-472), in
source order, the agentic dimension pushed last. -/
def dimensionScores (prompt : String) (systemPrompt : Option String)
    (estimatedTokens : ℕ) (cfg : ScoringConfig) : List DimensionScore :=
  let text := fullTextOf prompt systemPrompt
  let userText := jsToLower prompt
  [scoreTokenCount estimatedTokens cfg.tokenCountThresholds,
   scoreKeywordMatch text cfg.codeKeywords "codePresence" "code" ⟨1, 2⟩ ⟨0, 1/2, 1⟩,
   scoreKeywordMatch userText cfg.reasoningKeywords "reasoningMarkers" "reasoning"
     ⟨1, 2⟩ ⟨0, 7/10, 1⟩,
   scoreKeywordMatch text cfg.technicalKeywords "technicalTerms" "technical"
     ⟨2, 4⟩ ⟨0, 1/2, 1⟩,
   scoreKeywordMatch text cfg.creativeKeywords "creativeMarkers" "creative"
     ⟨1, 2⟩ ⟨0, 1/2, 7/10⟩,
   scoreKeywordMatch text cfg.simpleKeywords "simpleIndicators" "simple"
     ⟨1, 2⟩ ⟨0, -1, -1⟩,
   scoreMultiStep text,
   scoreQuestionComplexity prompt,
   scoreKeywordMatch text cfg.imperativeVerbs "imperativeVerbs" "imperative"
     ⟨1, 2⟩ ⟨0, 3/10, 1/2⟩,
   scoreKeywordMatch text cfg.constraintIndicators "constraintCount" "constraints"
     ⟨1, 3⟩ ⟨0, 3/10, 7/10⟩,
   scoreKeywordMatch text cfg.outputFormatKeywords "outputFormat" "format"
     ⟨1, 2⟩ ⟨0, 2/5, 7/10⟩,
   scoreKeywordMatch text cfg.referenceKeywords "referenceComplexity" "references"
     ⟨1, 2⟩ ⟨0, 3/10, 1/2⟩,
   scoreKeywordMatch text cfg.negationKeywords "negationComplexity" "negation"
     ⟨2, 3⟩ ⟨0, 3/10, 1/2⟩,
   scoreKeywordMatch text cfg.domainSpecificKeywords "domainSpecificity" "domain-specific"
     ⟨1, 2⟩ ⟨0, 1/2, 4/5⟩,
   (scoreAgenticTask text cfg.agenticTaskKeywords).1]

/-- The out-of-band agentic score. -/
def agenticScoreOf (prompt : String) (systemPrompt : Option String)
    (cfg : ScoringConfig) : ℚ :=
  (scoreAgenticTask (fullTextOf prompt systemPrompt) cfg.agenticTaskKeywords).2

/-- `weightedScore = Σ d.score * (weights[d.name] ?? 0)` (rules.ts 479-484). -/
def weightedScoreOf (prompt : String) (systemPrompt : Option String)
    (estimatedTokens : ℕ) (cfg : ScoringConfig) : ℚ :=
  (dimensionScores prompt systemPrompt estimatedTokens cfg).foldl
    (fun acc d => acc + d.score * cfg.dimensionWeights d.name) 0

/-- The collected non-null signals (rules.ts line 476). -/
def signalsOf (prompt : String) (systemPrompt : Option String)
    (estimatedTokens : ℕ) (cfg : ScoringConfig) : List String :=
  (dimensionScores prompt systemPrompt estimatedTokens cfg).filterMap (·.signal)

/-- The reasoning-override keyword count on the user prompt only
(rules.ts lines 488-490). -/
def reasoningCount (prompt : String) (cfg : ScoringConfig) : ℕ :=
  (cfg.reasoningKeywords.filter
    (fun kw => jsIncludes (jsToLower prompt) (jsToLower kw))).length

/-! ## Hysteresis state and tier calculation (rules.ts lines 22-86, 263-356) -/

/-- One fingerprint's `ScoreHistory` entry. -/
structure ScoreHistory where
  lastScore : ℚ
  lastTier : Option Tier
  consecutiveSameTier : ℕ
  lastBoundary : String

/-- The fingerprint-keyed history map. -/
abbrev HistMap : Type := List (String × ScoreHistory)

/-- The default history produced by `getScoreHistory` for a new fingerprint. -/
def defaultHistory : ScoreHistory :=
  { lastScore := 0, lastTier := none, consecutiveSameTier := 0, lastBoundary := "" }

/-- `getScoreHistory` (rules.ts lines 35-44). -/
def getScoreHistory (fingerprint : String) (hist : HistMap) : ScoreHistory :=
  (mapGet hist fingerprint).getD defaultHistory

/-- The history the classifier reads: `getScoreHistory` when a fingerprint is
given, the inline default otherwise (rules.ts lines 514-516). -/
def historyFor : Option String → HistMap → ScoreHistory
  | some f, hist => getScoreHistory f hist
  | none, _ => defaultHistory

/-- `cleanupScoreHistory` (rules.ts lines 75-86): size-based eviction of the
oldest (first-inserted) entries beyond 1000. -/
def cleanupScoreHistory (hist : HistMap) : HistMap :=
  if 1000 < hist.length then hist.drop (hist.length - 1000) else hist

/-- `updateScoreHistory` (rules.ts lines 49-70); `rand` models
`Math.random() < 0.01`. -/
def updateScoreHistory (fingerprint : String) (score : ℚ) (tier : Option Tier)
    (boundary : String) (hist : HistMap) (rand : Bool) : HistMap :=
  let consecutive :=
    match mapGet hist fingerprint with
    | some e => if e.lastTier = tier then e.consecutiveSameTier + 1 else 1
    | none => 1
  let hist1 := mapSet hist fingerprint
    { lastScore := score, lastTier := tier, consecutiveSameTier := consecutive,
      lastBoundary := boundary }
  if rand then cleanupScoreHistory hist1 else hist1

/-- The history write of `classifyByRules`: only with a fingerprint. -/
def histUpdate : Option String → ℚ → Option Tier → String → HistMap → Bool → HistMap
  | some f, score, tier, boundary, hist, rand =>
      updateScoreHistory f score tier boundary hist rand
  | none, _, _, _, hist, _ => hist

/-- Result record of `calculateTierWithHysteresis`. -/
structure TierCalc where
  tier : Option Tier
  distance : ℚ
  boundary : String
  usedHysteresis : Bool

/-- The hysteresis-free tier, boundary distance and nearest boundary name
(rules.ts lines 279-302). -/
def naturalCalc (score : ℚ) (b : TierBoundaries) : Tier × ℚ × String :=
  if score < b.simpleMedium then
    (.SIMPLE, b.simpleMedium - score, "simple-medium")
  else if score < b.mediumComplex then
    (.MEDIUM, min (score - b.simpleMedium) (b.mediumComplex - score),
     if score < (b.simpleMedium + b.mediumComplex) / 2 then "simple-medium"
     else "medium-complex")
  else if score < b.complexReasoning then
    (.COMPLEX, min (score - b.mediumComplex) (b.complexReasoning - score),
     if score < (b.mediumComplex + b.complexReasoning) / 2 then "medium-complex"
     else "complex-reasoning")
  else (.REASONING, score - b.complexReasoning, "complex-reasoning")

/-- `calculateTierWithHysteresis` (rules.ts lines 263-356).  The two
direction-dependent branches repeat the `currentDistance < fuzzyWidth` test
already covered by the fuzzy-region branch; they are ported as written. -/
def calculateTierWithHysteresis (score : ℚ) (b : TierBoundaries)
    (history : ScoreHistory) (fuzzyWidth : ℚ) : TierCalc :=
  let nc := naturalCalc score b
  let currentTier := nc.1
  let currentDistance := nc.2.1
  let nearestBoundary := nc.2.2
  match history.lastTier with
  | some lt =>
      if currentTier ≠ lt then
        if currentDistance < fuzzyWidth then
          { tier := some lt, distance := 1/20, boundary := nearestBoundary,
            usedHysteresis := true }
        else if tierIdx lt < tierIdx currentTier then
          if currentDistance < fuzzyWidth then
            { tier := some lt, distance := currentDistance,
              boundary := nearestBoundary, usedHysteresis := true }
          else
            { tier := some currentTier, distance := currentDistance,
              boundary := nearestBoundary, usedHysteresis := false }
        else
          if currentDistance < fuzzyWidth then
            { tier := some lt, distance := currentDistance,
              boundary := nearestBoundary, usedHysteresis := true }
          else
            { tier := some currentTier, distance := currentDistance,
              boundary := nearestBoundary, usedHysteresis := false }
      else
        { tier := some currentTier, distance := currentDistance,
          boundary := nearestBoundary, usedHysteresis := false }
  | none =>
      { tier := some currentTier, distance := currentDistance,
        boundary := nearestBoundary, usedHysteresis := false }

/-! ## The main classifier (rules.ts lines 360-556) -/

/-- `calibrateConfidence` (rules.ts lines 554-556): the sigmoid
`1 / (1 + exp (-steepness * distance))`. -/
noncomputable def calibrateConfidence (distance steepness : ℚ) : ℝ :=
  1 / (1 + Real.exp (-((steepness : ℝ) * (distance : ℝ))))

/-- `classifyByRules` (rules.ts lines 360-548).  The shared mutable
`scoreHistory` map is threaded explicitly: the call returns the
`ScoringResult` together with the updated map; `rand` models the 1%
`Math.random()` cleanup draw inside `updateScoreHistory`. -/
noncomputable def classifyByRules (prompt : String) (systemPrompt : Option String)
    (estimatedTokens : ℕ) (cfg : ScoringConfig) (fingerprint : Option String)
    (hist : HistMap) (rand : Bool) : ScoringResult × HistMap :=
  let wScore := weightedScoreOf prompt systemPrompt estimatedTokens cfg
  let signals := signalsOf prompt systemPrompt estimatedTokens cfg
  let agentic := agenticScoreOf prompt systemPrompt cfg
  if 2 ≤ reasoningCount prompt cfg then
    let confidence := calibrateConfidence (max wScore (3/10)) cfg.confidenceSteepness
    ({ score := wScore, tier := some Tier.REASONING,
       confidence := max confidence (0.85 : ℝ),
       signals := signals ++ ["reasoning-override"], agenticScore := agentic },
     histUpdate fingerprint wScore (some Tier.REASONING) "reasoning-override" hist rand)
  else
    let history := historyFor fingerprint hist
    let tc := calculateTierWithHysteresis wScore cfg.tierBoundaries history (1/20)
    let signals2 :=
      if tc.usedHysteresis then
        signals ++ ["hysteresis (" ++ tierOptStr history.lastTier ++ " → stable)"]
      else signals
    let confidence := calibrateConfidence tc.distance cfg.confidenceSteepness
    let hist2 := histUpdate fingerprint wScore tc.tier tc.boundary hist rand
    (if confidence < ((cfg.confidenceThreshold : ℚ) : ℝ) then
       { score := wScore, tier := none, confidence := confidence,
         signals := signals2, agenticScore := agentic }
     else
       { score := wScore, tier := tc.tier, confidence := confidence,
         signals := signals2, agenticScore := agentic },
     hist2)

/-! ## Score cache (score-cache.ts) -/

/-- `ScoreCacheConfig` (score-cache.ts lines 23-32). -/
structure ScoreCacheConfig where
  maxSize : ℕ
  ttlMs : ℕ
  fuzzyBoundaryWidth : ℚ
  jitterThreshold : ℕ

/-- `DEFAULT_CACHE_CONFIG` (lines 34-39). -/
def DEFAULT_CACHE_CONFIG : ScoreCacheConfig :=
  { maxSize := 1000, ttlMs := 24 * 60 * 60 * 1000,
    fuzzyBoundaryWidth := 1/20, jitterThreshold := 3 }

/-- `CachedScore` (lines 13-21). -/
structure CachedScore where
  result : ScoringResult
  timestamp : ℕ
  hitCount : ℕ
  lastTier : Tier
  distanceToBoundary : ℚ
  boundaryName : String

/-- The full private state of a `ScoreCache` instance. -/
structure CacheState where
  config : ScoreCacheConfig
  cache : List (String × CachedScore)
  accessOrder : List String
  jitterTracker : List (String × List Tier)
  jitterLocks : List (String × Tier)

namespace ScoreCache

/-- The constructor's empty state. -/
def init (config : ScoreCacheConfig) : CacheState :=
  { config, cache := [], accessOrder := [], jitterTracker := [], jitterLocks := [] }

/-- `updateAccessOrder` (lines 224-230): remove the first occurrence, push to
the back. -/
def updAO (ao : List String) (key : String) : List String :=
  ao.erase key ++ [key]

/-- `calculateBoundaryProximity` (lines 154-169): distance and label of the
nearest boundary; `reduce` with a strict `<` keeps the earliest of tied
distances. -/
def calculateBoundaryProximity (score : ℚ) (b : TierBoundaries) : ℚ × String :=
  let d1 : ℚ × String := (|score - b.simpleMedium|, "simple-medium")
  let d2 : ℚ × String := (|score - b.mediumComplex|, "medium-complex")
  let d3 : ℚ × String := (|score - b.complexReasoning|, "complex-reasoning")
  let m1 := if d2.1 < d1.1 then d2 else d1
  if d3.1 < m1.1 then d3 else m1

/-- `history.push(tier)` followed by `if (history.length > 5) history.shift()`
(lines 192-197). -/
def pushTier (h : List Tier) (t : Tier) : List Tier :=
  let h2 := h ++ [t]
  if 5 < h2.length then h2.drop 1 else h2

/-- `history.slice(-jitterThreshold)`: the last `jt` elements (for `jt = 0`,
JS `slice(-0)` is `slice(0)`, the whole array). -/
def windowOf (jt : ℕ) (h : List Tier) : List Tier :=
  if jt = 0 then h else h.drop (h.length - jt)

/-- `[...new Set(l)]`: deduplication keeping first occurrences. -/
def dedupKeepFirst {α : Type} [DecidableEq α] (l : List α) : List α :=
  l.foldl (fun acc t => if t ∈ acc then acc else acc ++ [t]) []

/-- The most frequent tier of the window (lines 208-216): counts are built in
first-occurrence order and stably sorted descending, so ties resolve to the
first-seen tier — an argmax scan with strict improvement. -/
def jitterMode (recent : List Tier) : Option Tier :=
  (dedupKeepFirst recent).foldl
    (fun best t =>
      match best with
      | none => some t
      | some b => if recent.count b < recent.count t then some t else some b)
    none

/-- `trackJitter` (lines 188-219): returns the updated tracker and lock maps. -/
def trackJitter (cfg : ScoreCacheConfig) (jt : List (String × List Tier))
    (locks : List (String × Tier)) (key : String) (tier : Option Tier) :
    List (String × List Tier) × List (String × Tier) :=
  match tier with
  | none => (jt, locks)
  | some t =>
      let history := (mapGet jt key).getD []
      let h2 := pushTier history t
      let jt2 := mapSet jt key h2
      if cfg.jitterThreshold ≤ h2.length then
        let recent := windowOf cfg.jitterThreshold h2
        if 2 ≤ (dedupKeepFirst recent).length then
          match jitterMode recent with
          | some m => (jt2, mapSet locks key m)
          | none => (jt2, locks)
        else (jt2, locks)
      else (jt2, locks)

/-- `evictLRU` (lines 245-253).  JS pops `accessOrder.shift()` and only
deletes when the popped key is truthy, so an empty-string key would be popped
without deletion; that branch is ported as written (it is unreachable from
real fingerprint keys, which are never empty). -/
def evictLRU (σ : CacheState) : CacheState :=
  match σ.accessOrder with
  | [] => σ
  | oldest :: rest =>
      if oldest = "" then { σ with accessOrder := rest }
      else
        { σ with
          accessOrder := rest,
          cache := mapDelete σ.cache oldest,
          jitterTracker := mapDelete σ.jitterTracker oldest,
          jitterLocks := mapDelete σ.jitterLocks oldest }

/-- `get` (lines 60-94): TTL check, LRU refresh, hit counting and the
jitter-lock tier substitution.  Returns the (possibly substituted) entry and
the mutated state. -/
noncomputable def get (σ : CacheState) (prompt : String) (systemPrompt : Option String)
    (now : ℕ) : Option CachedScore × CacheState :=
  let key := getCacheKey prompt systemPrompt
  let lockedTier := mapGet σ.jitterLocks key
  match mapGet σ.cache key with
  | none => (none, σ)
  | some cached =>
      if σ.config.ttlMs < now - cached.timestamp then
        (none, { σ with
            cache := mapDelete σ.cache key,
                        accessOrder := σ.accessOrder.erase key })
      else
        let c1 := { cached with hitCount := cached.hitCount + 1 }
        let σ' := { σ with
            cache := mapSet σ.cache key c1,
                           accessOrder := updAO σ.accessOrder key }
        match lockedTier with
        | some lt =>
            if c1.result.tier ≠ some lt then
              (some { c1 with
                  result := { c1.result with
                    tier := some lt,
                    confidence := max c1.result.confidence (0.7 : ℝ) } }, σ')
            else (some c1, σ')
        | none => (some c1, σ')

/-- `set` (lines 99-130): boundary proximity, jitter tracking, LRU eviction at
capacity, insertion. -/
def set (σ : CacheState) (prompt : String) (systemPrompt : Option String)
    (result : ScoringResult) (boundaries : TierBoundaries) (score : ℚ)
    (now : ℕ) : CacheState :=
  let key := getCacheKey prompt systemPrompt
  let prox := calculateBoundaryProximity score boundaries
  let tj := trackJitter σ.config σ.jitterTracker σ.jitterLocks key result.tier
  let cached : CachedScore :=
    { result, timestamp := now, hitCount := 1,
      lastTier := result.tier.getD Tier.MEDIUM,
      distanceToBoundary := prox.1, boundaryName := prox.2 }
  let σ1 := { σ with jitterTracker := tj.1, jitterLocks := tj.2 }
  let σ2 :=
    if σ1.config.maxSize ≤ σ1.cache.length ∧ (mapGet σ1.cache key).isNone
    then evictLRU σ1 else σ1
  { σ2 with
      cache := mapSet σ2.cache key cached,
            accessOrder := updAO σ2.accessOrder key }

/-- `shouldUseCachedTier` (lines 136-149); `newScore` is unused in the source
body and kept for signature fidelity. -/
def shouldUseCachedTier (cfg : ScoreCacheConfig) (cached : CachedScore)
    (newScore : ℚ) (newTier : Option Tier) : Bool :=
  match newTier, cached.result.tier with
  | none, _ => false
  | _, none => false
  | some nt, some ct =>
      if ct = nt then false
      else decide (cached.distanceToBoundary < cfg.fuzzyBoundaryWidth)

/-- `clear` (lines 258-263). -/
def clear (σ : CacheState) : CacheState :=
  { σ with cache := [], accessOrder := [], jitterTracker := [], jitterLocks := [] }

/-- Whether an entry has outlived the TTL at time `now`. -/
def expiredAt (cfg : ScoreCacheConfig) (now : ℕ) (c : CachedScore) : Bool :=
  cfg.ttlMs < now - c.timestamp

/-- `cleanup` (lines 286-301): delete every expired entry from all four
structures. -/
def cleanup (σ : CacheState) (now : ℕ) : CacheState :=
  let expiredKeys := (σ.cache.filter (fun kv => expiredAt σ.config now kv.2)).map (·.1)
  { σ with
    cache := σ.cache.filter (fun kv => ¬ expiredAt σ.config now kv.2),
    accessOrder := σ.accessOrder.filter (fun k => ¬ expiredKeys.contains k),
    jitterTracker := σ.jitterTracker.filter (fun kv => ¬ expiredKeys.contains kv.1),
    jitterLocks := σ.jitterLocks.filter (fun kv => ¬ expiredKeys.contains kv.1) }

end ScoreCache

/-- One public cache operation, for stating temporal properties over
operation sequences. -/
inductive CacheOp where
  | get (prompt : String) (systemPrompt : Option String) (now : ℕ)
  | set (prompt : String) (systemPrompt : Option String) (result : ScoringResult)
      (boundaries : TierBoundaries) (score : ℚ) (now : ℕ)
  | cleanup (now : ℕ)
  | clear

/-- The state effect of one cache operation. -/
noncomputable def applyCacheOp (σ : CacheState) : CacheOp → CacheState
  | .get p s now => (ScoreCache.get σ p s now).2
  | .set p s r b sc now => ScoreCache.set σ p s r b sc now
  | .cleanup now => ScoreCache.cleanup σ now
  | .clear => ScoreCache.clear σ

/-- Run a sequence of cache operations. -/
noncomputable def runCacheOps (σ : CacheState) (ops : List CacheOp) : CacheState :=
  ops.foldl applyCacheOp σ

/-! ## Route orchestrator (router/index.ts) -/

/-- A tier's model table entry (`(primary, fallback[])`, spec section 3). -/
structure TierConfig where
  primary : String
  fallback : List String

/-- The override block of `RoutingConfig`; `agenticMode` is optional in the
source (`?? false`). -/
structure Overrides where
  maxTokensForceComplex : ℕ
  structuredOutputMinTier : Tier
  ambiguousDefaultTier : Tier
  agenticMode : Option Bool

/-- `RoutingConfig`: scoring parameters, overrides and the two tier tables. -/
structure RoutingConfig where
  scoring : ScoringConfig
  overrides : Overrides
  tiers : Tier → TierConfig
  agenticTiers : Option (Tier → TierConfig)

/-- `RouterOptions` (index.ts lines 26-37); the pricing map is opaque to the
routing logic and omitted. -/
structure RouterOptions where
  config : RoutingConfig
  enableCache : Bool
  enableAdaptive : Bool
  enableHealthTracking : Bool
  sessionId : Option String

/-- A routing decision; `meta` is the `_meta` fingerprint/signals attachment
(absent on the large-context early return). -/
structure RoutingDecision where
  tier : Tier
  model : String
  confidence : ℝ
  method : String
  reasoning : String
  meta : Option (String × List String)

/-- Modelled from the spec: `selectModel` (src/router/selector.ts is not among
the staged sources).  Per spec section 4.7 step 10 and section 6, the decision
carries the given tier, confidence, method and reasoning, and names the
tier's primary model from the tier table. -/
def selectModel (tier : Tier) (confidence : ℝ) (method reasoning : String)
    (tierConfigs : Tier → TierConfig) (estimatedTokens maxOutputTokens : ℕ) :
    RoutingDecision :=
  { tier, model := (tierConfigs tier).primary, confidence, method, reasoning,
    meta := none }

/-- `/json|structured|schema/i` on the system prompt (index.ts line 150). -/
def hasStructuredOutput (s : String) : Bool :=
  jsIncludes (jsToLower s) "json" || jsIncludes (jsToLower s) "structured"
    || jsIncludes (jsToLower s) "schema"

/-- `systemPrompt ? /json|structured|schema/i.test(systemPrompt) : false`. -/
def hasStructuredOutputOpt : Option String → Bool
  | some s => hasStructuredOutput s
  | none => false

/-- `Math.ceil(fullText.length / 4)` for `fullText = (system ?? "") + " " +
prompt` (index.ts lines 69-70): the estimated token count. -/
def estTokens (prompt : String) (systemPrompt : Option String) : ℕ :=
  (((systemPrompt.getD "") ++ " " ++ prompt).length + 3) / 4

/-- The mutable stores `route` touches: the score cache singleton and the
classifier's score-history map. -/
structure RouterState where
  cache : CacheState
  hist : HistMap

/-- `route` (index.ts lines 50-220).  External collaborators are threaded as
arguments: `adaptiveWeights` is `Object.values(getAdaptiveWeightManager()
.getAllWeights())` (modelled from the spec — adaptive-weights.ts is not among
the staged sources), `healthBest` is `getModelHealthTracker().getBestModel`
(likewise), `now`/`rand` the clock and random draw.  Numeric formatting in
`reasoning` strings (`toFixed(2)`) is abstracted to `toString`. -/
noncomputable def route (prompt : String) (systemPrompt : Option String)
    (maxOutputTokens : ℕ) (opts : RouterOptions) (adaptiveWeights : List ℚ)
    (healthBest : Tier → List String → Option String) (σ : RouterState)
    (now : ℕ) (rand : Bool) : RoutingDecision × RouterState :=
  let fingerprint := generateFingerprint prompt systemPrompt
  let estimatedTokens := estTokens prompt systemPrompt
  let gotten :=
    if opts.enableCache then some (ScoreCache.get σ.cache prompt systemPrompt now)
    else none
  let cached : Option CachedScore := match gotten with | some g => g.1 | none => none
  let cache1 : CacheState := match gotten with | some g => g.2 | none => σ.cache
  let cr := classifyByRules prompt systemPrompt estimatedTokens opts.config.scoring
    (some fingerprint) σ.hist rand
  let ruleResult := cr.1
  let hist1 := cr.2
  let weightFactor : ℚ :=
    (adaptiveWeights.foldl (· + ·) 0) / (adaptiveWeights.length : ℚ)
  let adaptOn := opts.enableAdaptive && ruleResult.tier.isSome
  let adjustedScore := if adaptOn then ruleResult.score * weightFactor
    else ruleResult.score
  let adjustedConfidence : ℝ :=
    match cached with
    | some c =>
        if adaptOn
            && ScoreCache.shouldUseCachedTier σ.cache.config c adjustedScore ruleResult.tier
            && c.result.tier.isSome
        then max c.result.confidence (0.7 : ℝ)
        else ruleResult.confidence
    | none => ruleResult.confidence
  let cache2 :=
    if opts.enableCache then
      ScoreCache.set cache1 prompt systemPrompt
        { ruleResult with score := adjustedScore, confidence := adjustedConfidence }
        opts.config.scoring.tierBoundaries adjustedScore now
    else cache1
  let agenticScore := ruleResult.agenticScore
  let isAutoAgentic : Bool := decide ((3/4 : ℚ) ≤ agenticScore)
  let isExplicitAgentic : Bool := opts.config.overrides.agenticMode.getD false
  let useAgenticTiers := (isAutoAgentic || isExplicitAgentic)
    && opts.config.agenticTiers.isSome
  let tierConfigs := if useAgenticTiers then opts.config.agenticTiers.getD opts.config.tiers
    else opts.config.tiers
  let σ' : RouterState := { cache := cache2, hist := hist1 }
  if opts.config.overrides.maxTokensForceComplex < estimatedTokens then
    (selectModel Tier.COMPLEX (0.95 : ℝ) "rules"
      ("Input exceeds " ++ toString opts.config.overrides.maxTokensForceComplex
        ++ " tokens" ++ (if useAgenticTiers then " | agentic" else ""))
      tierConfigs estimatedTokens maxOutputTokens, σ')
  else
    let hasStructured := hasStructuredOutputOpt systemPrompt
    let reasoning0 := "score=" ++ toString adjustedScore ++ " | "
      ++ String.intercalate ", " ruleResult.signals
    let cachedCond :=
      (match cached with | some c => c.result.tier.isSome | none => true)
        && cached.isSome && opts.enableCache
    let tcr : Tier × ℝ × String :=
      if cachedCond then
        ((cached.bind (·.result.tier)).getD opts.config.overrides.ambiguousDefaultTier,
         adjustedConfidence, reasoning0 ++ " | cached")
      else if ruleResult.tier.isSome then
        (ruleResult.tier.getD opts.config.overrides.ambiguousDefaultTier,
         adjustedConfidence, reasoning0)
      else
        (opts.config.overrides.ambiguousDefaultTier, (0.5 : ℝ),
         reasoning0 ++ " | ambiguous -> default: "
           ++ opts.config.overrides.ambiguousDefaultTier.str)
    let tier1 := tcr.1
    let confidence := tcr.2.1
    let reasoning1 := tcr.2.2
    let minTier := opts.config.overrides.structuredOutputMinTier
    let tcs : Tier × String :=
      if hasStructured && decide (tierIdx tier1 < tierIdx minTier) then
        (minTier, reasoning1 ++ " | upgraded to " ++ minTier.str ++ " (structured output)")
      else (tier1, reasoning1)
    let tier2 := tcs.1
    let reasoning2 := tcs.2
      ++ (if isAutoAgentic then " | auto-agentic"
          else if isExplicitAgentic then " | agentic" else "")
    let reasoning3 :=
      if opts.enableHealthTracking then
        let tierModels := (tierConfigs tier2).primary :: (tierConfigs tier2).fallback
        match healthBest tier2 tierModels with
        | some best =>
            if best ≠ (tierConfigs tier2).primary then reasoning2 ++ " | health-override"
            else reasoning2
        | none => reasoning2
      else reasoning2
    let decision := selectModel tier2 confidence "rules" reasoning3 tierConfigs
      estimatedTokens maxOutputTokens
    ({ decision with meta := some (fingerprint, ruleResult.signals) }, σ')

/-- The `ruleResult` a `route` call computes (a derived view of the body's
`classifyByRules` call, for stating properties of `route`). -/
noncomputable def routeRuleResult (prompt : String) (systemPrompt : Option String)
    (opts : RouterOptions) (σ : RouterState) (rand : Bool) : ScoringResult :=
  (classifyByRules prompt systemPrompt (estTokens prompt systemPrompt)
    opts.config.scoring (some (generateFingerprint prompt systemPrompt)) σ.hist rand).1

/-- The `adjustedScore` a `route` call computes. -/
noncomputable def routeAdjScore (prompt : String) (systemPrompt : Option String)
    (opts : RouterOptions) (adaptiveWeights : List ℚ) (σ : RouterState)
    (rand : Bool) : ℚ :=
  let rr := routeRuleResult prompt systemPrompt opts σ rand
  if opts.enableAdaptive && rr.tier.isSome then
    rr.score * ((adaptiveWeights.foldl (· + ·) 0) / (adaptiveWeights.length : ℚ))
  else rr.score

/-- The condition under which `route` boosts the confidence from the cached
entry (index.ts lines 100-107): adaptive enabled, a non-null fresh tier,
`shouldUseCachedTier` true and a non-null cached tier. -/
noncomputable def routeBoostCond (prompt : String) (systemPrompt : Option String)
    (opts : RouterOptions) (adaptiveWeights : List ℚ) (σ : RouterState)
    (rand : Bool) (c : CachedScore) : Bool :=
  let rr := routeRuleResult prompt systemPrompt opts σ rand
  (opts.enableAdaptive && rr.tier.isSome)
    && ScoreCache.shouldUseCachedTier σ.cache.config c
        (routeAdjScore prompt systemPrompt opts adaptiveWeights σ rand) rr.tier
    && c.result.tier.isSome

/-! ## Session store (session.ts) -/

/-- `SessionContextSnapshot`. -/
structure SessionContextSnapshot where
  topics : List String
  intent : String
  complexityTrend : ℚ
  hasUsedTools : Bool
  lastToolSequence : List String
  avgResponseLength : ℚ

/-- `Partial<SessionContextSnapshot>`; a JS-falsy `intent` (the empty string)
is modelled as `none`, matching the truthiness guards in the source. -/
structure CtxUpdate where
  topics : Option (List String)
  intent : Option String
  complexityTrend : Option ℚ
  hasUsedTools : Option Bool
  lastToolSequence : Option (List String)
  avgResponseLength : Option ℚ

/-- `SessionPerformanceMetrics`. -/
structure SessionPerformanceMetrics where
  successRate : ℚ
  avgLatencyMs : ℚ
  avgCost : ℚ
  consecutiveFailures : ℕ
  totalInputTokens : ℕ
  totalOutputTokens : ℕ
  requestTimestamps : List ℕ

/-- `SessionDegradationState`. -/
structure SessionDegradationState where
  isDegraded : Bool
  originalModel : Option String
  originalTier : Option Tier
  reason : Option String
  degradedAt : Option ℕ
  recoveryRequests : ℕ

/-- `SessionEntry`; a recent error is `(timestamp, error, model)`. -/
structure SessionEntry where
  model : String
  tier : Tier
  createdAt : ℕ
  lastUsedAt : ℕ
  requestCount : ℕ
  contextSnapshot : SessionContextSnapshot
  metrics : SessionPerformanceMetrics
  degradation : SessionDegradationState
  recentErrors : List (ℕ × String × String)

/-- `SessionConfig` (session.ts lines 77-90). -/
structure SessionConfig where
  enabled : Bool
  timeoutMs : ℕ
  headerName : String
  degradationThreshold : ℕ
  recoveryThreshold : ℕ
  maxRequestHistory : ℕ

/-- `DEFAULT_SESSION_CONFIG` (session.ts lines 92-99). -/
def DEFAULT_SESSION_CONFIG : SessionConfig :=
  { enabled := false, timeoutMs := 30 * 60 * 1000, headerName := "x-session-id",
    degradationThreshold := 2, recoveryThreshold := 3, maxRequestHistory := 50 }

/-- The session map. -/
abbrev SessState : Type := List (String × SessionEntry)

/-- Modelled from the spec: the Health Tracker interface the session store
calls (src/model-health.ts is not among the staged sources).  Spec section
4.5: `getBestModel(tier, candidates)` filters the candidates by availability
and sorts them, returning one of the candidates or nothing; `isAvailable`
gates restoration of the original model. -/
structure HealthView where
  isAvailable : String → Bool
  getBestModel : Tier → List String → Option String

/-- The outcome record passed to `recordResult`. -/
structure SessionResult where
  success : Bool
  latencyMs : ℚ
  cost : ℚ
  inputTokens : ℕ
  outputTokens : ℕ
  error : Option String

namespace SessionStore

/-- `getTierModels` (session.ts lines 344-348) — the source placeholder that
always returns the empty candidate list. -/
def getTierModels (_ : Tier) : List String := []

/-- The private `updateContext(entry, context)` merge (session.ts 353-377). -/
def mergeContext (snapshot : SessionContextSnapshot) (ctx : CtxUpdate) :
    SessionContextSnapshot :=
  let s1 :=
    match ctx.topics with
    | some ts =>
        { snapshot with
            topics :=
            (ScoreCache.dedupKeepFirst (snapshot.topics ++ ts)).take 10 }
    | none => snapshot
  let s2 := match ctx.intent with | some i => { s1 with intent := i } | none => s1
  let s3 :=
    match ctx.complexityTrend with
    | some c => { s2 with complexityTrend := 7/10 * s2.complexityTrend + 3/10 * c }
    | none => s2
  let s4 :=
    match ctx.hasUsedTools with
    | some b => { s3 with hasUsedTools := s3.hasUsedTools || b }
    | none => s3
  let s5 :=
    match ctx.lastToolSequence with
    | some seq => { s4 with lastToolSequence := seq }
    | none => s4
  match ctx.avgResponseLength with
  | some a => { s5 with avgResponseLength := 7/10 * s5.avgResponseLength + 3/10 * a }
  | none => s5

/-- `getSession` (session.ts lines 122-143): `none` when disabled, for an
empty id, for a missing entry, or past the timeout (the expired entry is
deleted); otherwise refreshes `lastUsedAt`. -/
def getSession (cfg : SessionConfig) (σ : SessState) (sessionId : String)
    (now : ℕ) : Option SessionEntry × SessState :=
  if ¬ cfg.enabled ∨ sessionId = "" then (none, σ)
  else
    match mapGet σ sessionId with
    | none => (none, σ)
    | some entry =>
        if cfg.timeoutMs < now - entry.lastUsedAt then (none, mapDelete σ sessionId)
        else
          (some { entry with
              lastUsedAt := now },
           mapSet σ sessionId { entry with lastUsedAt := now })

/-- `setSession` (session.ts lines 148-218).  On the new-session path the
source initializes `complexityTrend` with `|| 0.5`, so an explicit `0` also
falls back to `0.5`. -/
def setSession (cfg : SessionConfig) (σ : SessState) (sessionId model : String)
    (tier : Tier) (ctx : Option CtxUpdate) (now : ℕ) : SessState :=
  if ¬ cfg.enabled ∨ sessionId = "" then σ
  else
    match mapGet σ sessionId with
    | some existing =>
        let e1 := { existing with
            lastUsedAt := now,
                    requestCount := existing.requestCount + 1 }
        let e2 :=
          if e1.model ≠ model then
            let d :=
              if ¬ e1.degradation.isDegraded then
                { e1.degradation with
                  originalModel := some e1.model,
                  originalTier := some e1.tier }
              else e1.degradation
            { e1 with degradation := d, model := model, tier := tier }
          else e1
        let e3 :=
          match ctx with
          | some c => { e2 with contextSnapshot := mergeContext e2.contextSnapshot c }
          | none => e2
        let ts := e3.metrics.requestTimestamps ++ [now]
        let ts2 := if cfg.maxRequestHistory < ts.length then ts.drop 1 else ts
        mapSet σ sessionId { e3 with metrics := { e3.metrics with requestTimestamps := ts2 } }
    | none =>
        mapSet σ sessionId
          { model, tier, createdAt := now, lastUsedAt := now, requestCount := 1,
            contextSnapshot :=
              { topics := (ctx.bind (·.topics)).getD [],
                intent := (ctx.bind (·.intent)).getD "general",
                complexityTrend :=
                  (match ctx.bind (·.complexityTrend) with
                   | some c => if c = 0 then 1/2 else c
                   | none => 1/2),
                hasUsedTools := (ctx.bind (·.hasUsedTools)).getD false,
                lastToolSequence := (ctx.bind (·.lastToolSequence)).getD [],
                avgResponseLength := (ctx.bind (·.avgResponseLength)).getD 0 },
            metrics :=
              { successRate := 1, avgLatencyMs := 0, avgCost := 0,
                consecutiveFailures := 0, totalInputTokens := 0,
                totalOutputTokens := 0, requestTimestamps := [now] },
            degradation :=
              { isDegraded := false, originalModel := none, originalTier := none,
                reason := none, degradedAt := none, recoveryRequests := 0 },
            recentErrors := [] }

/-- `degradeSession` (session.ts lines 290-317): asks the Health Tracker for
the best model among `getTierModels` (the empty placeholder list) and only
degrades when it names a different model. -/
def degradeSession (hv : HealthView) (σ : SessState) (sessionId reason : String)
    (now : ℕ) : SessState :=
  match mapGet σ sessionId with
  | none => σ
  | some entry =>
      if entry.degradation.isDegraded then σ
      else
        let tierModels := getTierModels entry.tier
        match hv.getBestModel entry.tier tierModels with
        | some stableModel =>
            if stableModel ≠ entry.model then
              mapSet σ sessionId
                { entry with
                  degradation :=
                    { isDegraded := true, originalModel := some entry.model,
                      originalTier := some entry.tier, reason := some reason,
                      degradedAt := some now, recoveryRequests := 0 },
                  model := stableModel,
                  metrics := { entry.metrics with consecutiveFailures := 0 } }
            else σ
        | none => σ

/-- `restoreOriginalModel` (session.ts lines 322-339). -/
def restoreOriginalModel (hv : HealthView) (σ : SessState) (sessionId : String) :
    SessState :=
  match mapGet σ sessionId with
  | none => σ
  | some entry =>
      if ¬ entry.degradation.isDegraded then σ
      else
        match entry.degradation.originalModel, entry.degradation.originalTier with
        | some om, some ot =>
            if hv.isAvailable om then
              mapSet σ sessionId
                { entry with
                  model := om, tier := ot,
                  degradation :=
                    { isDegraded := false, originalModel := none,
                      originalTier := none, reason := none, degradedAt := none,
                      recoveryRequests := 0 } }
            else σ
        | _, _ => σ

/-- `recordResult` (session.ts lines 224-285): metric EMAs, recovery counting
on success, error logging and threshold-triggered degradation on failure. -/
def recordResult (cfg : SessionConfig) (hv : HealthView) (σ : SessState)
    (sessionId : String) (result : SessionResult) (now : ℕ) : SessState :=
  if ¬ cfg.enabled ∨ sessionId = "" then σ
  else
    match mapGet σ sessionId with
    | none => σ
    | some entry =>
        let m0 := entry.metrics
        let m1 := { m0 with
          totalInputTokens := m0.totalInputTokens + result.inputTokens,
          totalOutputTokens := m0.totalOutputTokens + result.outputTokens,
          avgLatencyMs := 7/10 * m0.avgLatencyMs + 3/10 * result.latencyMs,
          avgCost := 7/10 * m0.avgCost + 3/10 * result.cost }
        if result.success then
          let m2 := { m1 with
              consecutiveFailures := 0,
                      successRate := 7/10 * m1.successRate + 3/10 * 1 }
          if entry.degradation.isDegraded then
            let d2 := { entry.degradation with
              recoveryRequests := entry.degradation.recoveryRequests + 1 }
            let σ1 := mapSet σ sessionId { entry with metrics := m2, degradation := d2 }
            if cfg.recoveryThreshold ≤ d2.recoveryRequests then
              restoreOriginalModel hv σ1 sessionId
            else σ1
          else mapSet σ sessionId { entry with metrics := m2 }
        else
          let m2 := { m1 with
              consecutiveFailures := m1.consecutiveFailures + 1,
                      successRate := 7/10 * m1.successRate + 3/10 * 0 }
          let errs :=
            match result.error with
            | some e =>
                let l := entry.recentErrors ++ [(now, e, entry.model)]
                if 5 < l.length then l.drop 1 else l
            | none => entry.recentErrors
          let σ1 := mapSet σ sessionId { entry with metrics := m2, recentErrors := errs }
          if cfg.degradationThreshold ≤ m2.consecutiveFailures then
            degradeSession hv σ1 sessionId
              (toString m2.consecutiveFailures ++ " consecutive failures") now
          else σ1

/-- `isDegraded` (session.ts lines 394-397). -/
def isDegraded (σ : SessState) (sessionId : String) : Bool :=
  match mapGet σ sessionId with
  | some e => e.degradation.isDegraded
  | none => false

end SessionStore

/-! # Concrete fixtures used by witnesses and counterexamples -/

/-- The default session configuration with persistence switched on (the
repository's own test setup for degradation). -/
def sessionCfgOn : SessionConfig := { DEFAULT_SESSION_CONFIG with enabled := true }

/-- A failed request outcome (the test's timeout failure). -/
def failRes : SessionResult :=
  { success := false, latencyMs := 100, cost := 0, inputTokens := 50,
    outputTokens := 0, error := some "timeout" }

/-- A trivially healthy Health Tracker view: everything available, and the
best of the candidate list is its head (so the best of an empty candidate
list is nothing, as the spec's filter-and-sort requires). -/
def hvHead : HealthView :=
  { isAvailable := fun _ => true, getBestModel := fun _ cs => cs.head? }

/-- The session map after pinning `session-1` to `gpt-4`. -/
def c4s1 : SessState :=
  SessionStore.setSession sessionCfgOn [] "session-1" "gpt-4" Tier.COMPLEX none 0

/-- After the first failed `recordResult` (below the degradation threshold,
so no Health Tracker call is reached and any view gives this state). -/
def c4s2 : SessState :=
  SessionStore.recordResult sessionCfgOn hvHead c4s1 "session-1" failRes 0

/-- After the second failed `recordResult` evaluated with `hvHead`: the
degradation threshold fires, but `degradeSession` finds no alternative model
because `getTierModels` returns the empty placeholder list. -/
def c4s3 : SessState :=
  SessionStore.recordResult sessionCfgOn hvHead c4s2 "session-1" failRes 0

/-- A minimal scoring configuration: default boundaries `(0, 0.18, 0.40)`,
steepness 12, token thresholds `(50, 500)`, empty keyword lists, zero
weights; `θ` is the confidence threshold. -/
def plainScoring (θ : ℚ) : ScoringConfig :=
  { dimensionWeights := fun _ => 0,
    tierBoundaries := { simpleMedium := 0, mediumComplex := 18/100, complexReasoning := 2/5 },
    tokenCountThresholds := { simple := 50, complex := 500 },
    confidenceSteepness := 12, confidenceThreshold := θ,
    codeKeywords := [], reasoningKeywords := [], technicalKeywords := [],
    creativeKeywords := [], simpleKeywords := [], imperativeVerbs := [],
    constraintIndicators := [], outputFormatKeywords := [], referenceKeywords := [],
    negationKeywords := [], domainSpecificKeywords := [], agenticTaskKeywords := [] }

/-- Scoring config for the C2 counterexample: the default confidence
threshold 0.7, one simple-indicator keyword carrying weight 1. -/
def cfgC2 : ScoringConfig :=
  { plainScoring (7/10) with
    simpleKeywords := ["zzz"],
    dimensionWeights := fun name => if name = "simpleIndicators" then 1 else 0 }

/-- History map recorded by a first classification of `"zzz"` under `cfgC2`
(score −1, tier SIMPLE) for fingerprint `"fp"`. -/
noncomputable def c2hist1 : HistMap :=
  (classifyByRules "zzz" none 100 cfgC2 (some "fp") [] false).2

/-- Scoring config for the C2 witness: confidence threshold 0.5. -/
def cfgW : ScoringConfig := plainScoring (1/2)

/-- A history map holding a prior SIMPLE decision for fingerprint `"fp"`. -/
def histW : HistMap :=
  [("fp", { lastScore := -1, lastTier := some Tier.SIMPLE,
            consecutiveSameTier := 1, lastBoundary := "simple-medium" })]

/-- A one-model tier table. -/
def tiersX : Tier → TierConfig := fun _ => { primary := "model-x", fallback := [] }

/-- Routing config for the C6 witness: `maxTokensForceComplex = 1`. -/
def cfgR6 : RoutingConfig :=
  { scoring := plainScoring (7/10),
    overrides := { maxTokensForceComplex := 1, structuredOutputMinTier := Tier.MEDIUM,
                   ambiguousDefaultTier := Tier.MEDIUM, agenticMode := none },
    tiers := tiersX, agenticTiers := none }

/-- Router options over `cfgR6` with cache and adaptive weights on. -/
def optsR6 : RouterOptions :=
  { config := cfgR6, enableCache := true, enableAdaptive := true,
    enableHealthTracking := false, sessionId := none }

/-- A fresh router state: empty cache (default config) and empty history. -/
def emptyRouterState : RouterState :=
  { cache := ScoreCache.init DEFAULT_CACHE_CONFIG, hist := [] }

/-- Scoring config for the C1 instance: two reasoning keywords so the fresh
classification deterministically yields REASONING via the override. -/
def cfgC1 : ScoringConfig := { plainScoring (7/10) with reasoningKeywords := ["prove", "why"] }

/-- Routing config for the C1 instance. -/
def routingC1 : RoutingConfig :=
  { scoring := cfgC1,
    overrides := { maxTokensForceComplex := 100000, structuredOutputMinTier := Tier.MEDIUM,
                   ambiguousDefaultTier := Tier.MEDIUM, agenticMode := none },
    tiers := tiersX, agenticTiers := none }

/-- Router options for the C1 instance (cache and adaptive on). -/
def optsC1 : RouterOptions :=
  { config := routingC1, enableCache := true, enableAdaptive := true,
    enableHealthTracking := false, sessionId := none }

/-- A cached SIMPLE entry far from every boundary (distance 0.3 ≥ 0.05, so
`shouldUseCachedTier` is false). -/
def entryC1 : CachedScore :=
  { result := { score := 1/10, tier := some Tier.SIMPLE, confidence := (0.8 : ℝ),
                signals := [], agenticScore := 0 },
    timestamp := 0, hitCount := 1, lastTier := Tier.SIMPLE,
    distanceToBoundary := 3/10, boundaryName := "simple-medium" }

/-- `entryC1` as `get` returns it (hit count incremented). -/
def entryC1Hit : CachedScore := { entryC1 with hitCount := 2 }

/-- Router state holding `entryC1` under the fingerprint of `"prove why"`. -/
def σC1 : RouterState :=
  { cache := { config := DEFAULT_CACHE_CONFIG,
               cache := [("REASONING|SHORT|prove why|none", entryC1)],
               accessOrder := ["REASONING|SHORT|prove why|none"],
               jitterTracker := [], jitterLocks := [] },
    hist := [] }

/-- The key list of an association map. -/
def keysOf {V : Type} (m : List (String × V)) : List String := m.map Prod.fst

/-- The structural invariant of a `ScoreCache` state: the access order is
duplicate-free and coincides (as a set) with the duplicate-free cache key
set, no key is the empty string, and the entry count respects `maxSize`. -/
def CacheInv (σ : CacheState) : Prop :=
  σ.accessOrder.Nodup ∧
  (keysOf σ.cache).Nodup ∧
  keysOf σ.cache ⊆ σ.accessOrder ∧
  σ.accessOrder ⊆ keysOf σ.cache ∧
  (∀ k ∈ σ.accessOrder, ¬ k = "") ∧
  σ.cache.length ≤ σ.config.maxSize

/-- A zero-capacity cache config (C8 counterexample). -/
def cfg0 : ScoreCacheConfig :=
  { maxSize := 0, ttlMs := 1000, fuzzyBoundaryWidth := 1/20, jitterThreshold := 3 }

/-- A minimal ambiguous scoring result (tier `null`). -/
def res0 : ScoringResult :=
  { score := 0, tier := none, confidence := (0 : ℝ), signals := [], agenticScore := 0 }

/-- Default-style tier boundaries for cache fixtures. -/
def bounds0 : TierBoundaries :=
  { simpleMedium := 0, mediumComplex := 18/100, complexReasoning := 2/5 }

/-- The keys of the expired entries of a cache state (the `expiredKeys`
array of `cleanup`). -/
def expiredKeysOf (σ : CacheState) (now : ℕ) : List String :=
  (σ.cache.filter (fun kv => ScoreCache.expiredAt σ.config now kv.2)).map (·.1)

/-! # Theorems -/

/-- C3 — In `fingerprintsSimilar`, JS `split('|', 2)` truncates to the first
two segments, so the prompts `"What is 2+2?"` and `"Where is he now?"` — whose
fingerprints share the feature tags `Q1|SHORT` but whose content digests
differ in 10 of 12 common-prefix positions plus 4 length difference,
normalized 14/16, far beyond the 10% bound — are nevertheless reported
similar: the function compares `"Q1"` with `"Q1"` and `"SHORT"` with
`"SHORT"` and never reaches the digests. -/
theorem fingerprintsSimilar_split_bug :
    fingerprintsSimilar (generateFingerprint "What is 2+2?" none)
        (generateFingerprint "Where is he now?" none) = true ∧
    generateFingerprint "What is 2+2?" none = "Q1|SHORT|what is 2+2?|none" ∧
    generateFingerprint "Where is he now?" none = "Q1|SHORT|where is he now?|none" ∧
    countDiffs (contentHash "What is 2+2?").data (contentHash "Where is he now?").data = 10 ∧
    ¬ (((countDiffs (contentHash "What is 2+2?").data (contentHash "Where is he now?").data
          + ((contentHash "Where is he now?").length - (contentHash "What is 2+2?").length) : ℚ)
        / ((contentHash "Where is he now?").length : ℚ)) < 1/10) := by
  refine ⟨by decide, by decide, by decide, by decide, ?_⟩
  have h1 : countDiffs (contentHash "What is 2+2?").data (contentHash "Where is he now?").data = 10 := by decide
  have h2 : (contentHash "Where is he now?").length = 16 := by decide
  have h3 : (contentHash "What is 2+2?").length = 12 := by decide
  rw [h1, h2, h3]
  norm_num

/-- C9 — Without a fingerprint, `classifyByRules` is a pure function of the
prompt, system prompt, token estimate and config: its result does not depend
on the shared score-history map or on the random cleanup draw, and the map is
returned unchanged. -/
theorem classifyByRules_no_fingerprint_pure :
    ∀ (p : String) (sys : Option String) (n : ℕ) (cfg : ScoringConfig)
      (h₁ h₂ : HistMap) (r₁ r₂ : Bool),
      (classifyByRules p sys n cfg none h₁ r₁).1 = (classifyByRules p sys n cfg none h₂ r₂).1 ∧
      (classifyByRules p sys n cfg none h₁ r₁).2 = h₁ := by
  intro p sys n cfg h₁ h₂ r₁ r₂
  unfold classifyByRules
  by_cases hc : 2 ≤ reasoningCount p cfg <;>
    simp [hc, historyFor, histUpdate]

/-- C10 — With the default session configuration (`enabled = false`), or with
an empty session id, `getSession`, `setSession` and `recordResult` are no-ops
on the session map, and `getSession` returns `none`. -/
theorem session_disabled_noop :
    DEFAULT_SESSION_CONFIG.enabled = false ∧
    ∀ (cfg : SessionConfig) (hv : HealthView) (σ : SessState) (sid model : String)
      (tier : Tier) (ctx : Option CtxUpdate) (res : SessionResult) (now : ℕ),
      cfg.enabled = false ∨ sid = "" →
      SessionStore.getSession cfg σ sid now = (none, σ) ∧
      SessionStore.setSession cfg σ sid model tier ctx now = σ ∧
      SessionStore.recordResult cfg hv σ sid res now = σ := by
  refine ⟨rfl, ?_⟩
  intro cfg hv σ sid model tier ctx res now h
  have hg : ¬ cfg.enabled = true ∨ sid = "" := by
    rcases h with h | h
    · exact Or.inl (by simp [h])
    · exact Or.inr h
  refine ⟨?_, ?_, ?_⟩
  · unfold SessionStore.getSession
    rw [if_pos hg]
  · unfold SessionStore.setSession
    rw [if_pos hg]
  · unfold SessionStore.recordResult
    rw [if_pos hg]

/-- With a Health Tracker that only ever proposes one of the offered
candidates, `degradeSession` is the identity: its candidate list is the
`getTierModels` placeholder `[]`, so no stable model is ever found. -/
theorem degradeSession_noop_of_candidates (hv : HealthView)
    (hsel : ∀ t cs m, hv.getBestModel t cs = some m → m ∈ cs)
    (σ : SessState) (sid reason : String) (now : ℕ) :
    SessionStore.degradeSession hv σ sid reason now = σ := by
  unfold SessionStore.degradeSession
  cases hg : mapGet σ sid with
  | none => rfl
  | some entry =>
      by_cases hd : entry.degradation.isDegraded
      · simp [hd]
      · simp only [hd, if_neg]
        cases hb : hv.getBestModel entry.tier (SessionStore.getTierModels entry.tier) with
        | none => simp
        | some m =>
            have : m ∈ SessionStore.getTierModels entry.tier := hsel _ _ _ hb
            simp [SessionStore.getTierModels] at this

/-- C4 — After `degradationThreshold = 2` consecutive failures on an enabled,
pinned session, the session is still *not* degraded and no original model is
recorded, for every Health Tracker that picks its best model from the offered
candidate list: `degradeSession` asks for the best model among
`getTierModels`, the placeholder that always returns `[]`, so degradation
never engages — against the claim (and the repository's own test). -/
theorem session_degradation_never_fires (hv : HealthView)
    (hsel : ∀ t cs m, hv.getBestModel t cs = some m → m ∈ cs) :
    SessionStore.recordResult sessionCfgOn hv
        (SessionStore.recordResult sessionCfgOn hv c4s1 "session-1" failRes 0)
        "session-1" failRes 0 = c4s3 ∧
    SessionStore.isDegraded c4s3 "session-1" = false ∧
    (mapGet c4s3 "session-1").map (fun e => e.degradation.originalModel) = some none := by
  refine ⟨?_, by decide, by decide⟩
  show SessionStore.degradeSession hv c4s3 "session-1" "2 consecutive failures" 0 = c4s3
  exact degradeSession_noop_of_candidates hv hsel _ _ _ _

/-- Witness for `session_degradation_never_fires` at the concrete head-picking
Health Tracker view. -/
theorem session_degradation_never_fires_witness :
    SessionStore.isDegraded c4s3 "session-1" = false ∧
    (mapGet c4s3 "session-1").map (fun e => e.degradation.originalModel) = some none :=
  (session_degradation_never_fires hvHead
    (fun _ cs m h => by
      have h2 : cs.head? = some m := h
      exact List.mem_of_mem_head? (Option.mem_def.mpr h2))).2

/-- C5 — With at least 2 distinct reasoning keywords in the (lowercased) user
prompt, `classifyByRules` returns tier REASONING with confidence
`max (sigmoid (steepness * max (weightedScore, 0.3))) 0.85 ≥ 0.85`, for every
system prompt, history state and random draw; and with fewer than 2 such
keywords the override never fires: the result is the hysteresis-path outcome,
whatever reasoning keywords the system prompt contains. -/
theorem reasoning_override_exact :
    ∀ (p : String) (sys : Option String) (n : ℕ) (cfg : ScoringConfig)
      (fp : Option String) (hist : HistMap) (rand : Bool),
      (2 ≤ reasoningCount p cfg →
        (classifyByRules p sys n cfg fp hist rand).1.tier = some Tier.REASONING ∧
        (classifyByRules p sys n cfg fp hist rand).1.confidence
          = max (calibrateConfidence (max (weightedScoreOf p sys n cfg) (3/10))
              cfg.confidenceSteepness) (0.85 : ℝ) ∧
        (0.85 : ℝ) ≤ (classifyByRules p sys n cfg fp hist rand).1.confidence) ∧
      (reasoningCount p cfg < 2 →
        (classifyByRules p sys n cfg fp hist rand).1.tier
          = (if calibrateConfidence
                  (calculateTierWithHysteresis (weightedScoreOf p sys n cfg)
                    cfg.tierBoundaries (historyFor fp hist) (1/20)).distance
                  cfg.confidenceSteepness
                < ((cfg.confidenceThreshold : ℚ) : ℝ) then none
             else (calculateTierWithHysteresis (weightedScoreOf p sys n cfg)
                cfg.tierBoundaries (historyFor fp hist) (1/20)).tier)) := by
  intro p sys n cfg fp hist rand
  constructor
  · intro h
    unfold classifyByRules
    rw [if_pos h]
    refine ⟨rfl, rfl, le_max_right _ _⟩
  · intro h
    unfold classifyByRules
    rw [if_neg (by omega)]
    dsimp only []
    simp only [apply_ite ScoringResult.tier]

/-- `e^(3/5) < 7/3` (≈ 1.822 < 2.333), via fifth powers and the decimal bound
on `e`. -/
theorem exp_three_fifths_lt : Real.exp (3/5 : ℝ) < 7/3 := by
  have h5 : Real.exp (3/5 : ℝ) ^ (5 : ℕ) = Real.exp 3 := by
    rw [← Real.exp_nat_mul]
    norm_num
  have h3 : Real.exp (3 : ℝ) = Real.exp 1 ^ (3 : ℕ) := by
    rw [← Real.exp_nat_mul]
    norm_num
  have he : Real.exp 1 ^ (3 : ℕ) < 2.7182818286 ^ (3 : ℕ) :=
    pow_lt_pow_left₀ Real.exp_one_lt_d9 (Real.exp_pos 1).le (by norm_num)
  have hlt : Real.exp (3/5 : ℝ) ^ (5 : ℕ) < (7/3 : ℝ) ^ (5 : ℕ) := by
    rw [h5, h3]
    calc Real.exp 1 ^ (3 : ℕ) < 2.7182818286 ^ (3 : ℕ) := he
    _ < (7/3 : ℝ) ^ (5 : ℕ) := by norm_num
  exact lt_of_pow_lt_pow_left₀ 5 (by norm_num) hlt

/-- The calibrated confidence at the hysteresis floor distance 0.05 with the
default steepness 12 is below the default threshold 0.7:
`sigmoid 0.6 ≈ 0.6457 < 0.7`. -/
theorem sigmoid_small_lt_seven_tenths :
    calibrateConfidence (1/20) 12 < (((7 : ℚ)/10 : ℚ) : ℝ) := by
  unfold calibrateConfidence
  have harg : -((((12 : ℚ)) : ℝ) * ((((1 : ℚ)/20 : ℚ)) : ℝ)) = -(3/5 : ℝ) := by
    push_cast
    ring
  rw [harg]
  have hgt : (3/7 : ℝ) < Real.exp (-(3/5 : ℝ)) := by
    rw [Real.exp_neg, show (3/7 : ℝ) = (7/3 : ℝ)⁻¹ by norm_num]
    exact inv_lt_inv_of_lt (Real.exp_pos _) exp_three_fifths_lt
  have hpos : (0 : ℝ) < 1 + Real.exp (-(3/5 : ℝ)) := by positivity
  rw [show ((((7 : ℚ)/10 : ℚ)) : ℝ) = (7/10 : ℝ) by norm_num, div_lt_iff hpos]
  nlinarith [hgt]

/-- Shared hysteresis evaluation: with fewer than 2 reasoning keywords, a
prior tier `T` on file, and a natural tier that differs from `T` with a
boundary distance inside the fuzzy width, `calculateTierWithHysteresis`
keeps `T` (with the floor distance 0.05), and the classifier returns `T`
exactly when the calibrated confidence at distance 0.05 clears the
threshold — otherwise it returns `none`. -/
theorem classify_fuzzy_keep (p : String) (sys : Option String) (n : ℕ)
    (cfg : ScoringConfig) (fp : Option String) (hist : HistMap) (rand : Bool)
    (T : Tier)
    (hcnt : reasoningCount p cfg < 2)
    (hlast : (historyFor fp hist).lastTier = some T)
    (hne : (naturalCalc (weightedScoreOf p sys n cfg) cfg.tierBoundaries).1 ≠ T)
    (hdist : (naturalCalc (weightedScoreOf p sys n cfg) cfg.tierBoundaries).2.1 < 1/20) :
    (calculateTierWithHysteresis (weightedScoreOf p sys n cfg) cfg.tierBoundaries
        (historyFor fp hist) (1/20)).tier = some T ∧
    (classifyByRules p sys n cfg fp hist rand).1.tier
      = (if calibrateConfidence (1/20) cfg.confidenceSteepness
            < ((cfg.confidenceThreshold : ℚ) : ℝ) then none else some T) := by
  have htc : calculateTierWithHysteresis (weightedScoreOf p sys n cfg) cfg.tierBoundaries
      (historyFor fp hist) (1/20)
      = { tier := some T, distance := 1/20,
          boundary := (naturalCalc (weightedScoreOf p sys n cfg) cfg.tierBoundaries).2.2,
          usedHysteresis := true } := by
    unfold calculateTierWithHysteresis
    rw [hlast]
    dsimp only []
    rw [if_pos hne, if_pos hdist]
  refine ⟨by rw [htc], ?_⟩
  unfold classifyByRules
  rw [if_neg (by omega)]
  dsimp only []
  rw [htc]
  simp only [apply_ite ScoringResult.tier]

/-- C2 (amended) — With a recorded prior tier `T` for the fingerprint, fewer
than 2 reasoning keywords in the user prompt, and a weighted score whose
natural tier differs from `T` while lying within the fuzzy width 0.05 of the
nearest boundary, the hysteresis computation keeps `T`; the call *returns*
`T` only when the calibrated confidence at the floor distance 0.05 reaches
`confidenceThreshold`, and returns `null` (ambiguous) otherwise — with the
default threshold 0.7 and steepness 12 the ambiguous branch is taken. -/
theorem hysteresis_fuzzy_keeps_prior (p : String) (sys : Option String) (n : ℕ)
    (cfg : ScoringConfig) (fp : Option String) (hist : HistMap) (rand : Bool)
    (T : Tier)
    (hcnt : reasoningCount p cfg < 2)
    (hlast : (historyFor fp hist).lastTier = some T)
    (hne : (naturalCalc (weightedScoreOf p sys n cfg) cfg.tierBoundaries).1 ≠ T)
    (hdist : (naturalCalc (weightedScoreOf p sys n cfg) cfg.tierBoundaries).2.1 < 1/20) :
    (calculateTierWithHysteresis (weightedScoreOf p sys n cfg) cfg.tierBoundaries
        (historyFor fp hist) (1/20)).tier = some T ∧
    (classifyByRules p sys n cfg fp hist rand).1.tier
      = (if calibrateConfidence (1/20) cfg.confidenceSteepness
            < ((cfg.confidenceThreshold : ℚ) : ℝ) then none else some T) :=
  classify_fuzzy_keep p sys n cfg fp hist rand T hcnt hlast hne hdist

/-- Witness for `hysteresis_fuzzy_keeps_prior`: prompt `"hello"` scoring 0
(natural tier MEDIUM at distance 0 from the simple-medium boundary) against a
recorded SIMPLE decision, with confidence threshold 0.5. -/
theorem hysteresis_fuzzy_keeps_prior_witness :
    reasoningCount "hello" cfgW < 2 ∧
    (historyFor (some "fp") histW).lastTier = some Tier.SIMPLE ∧
    (naturalCalc (weightedScoreOf "hello" none 100 cfgW) cfgW.tierBoundaries).1 ≠ Tier.SIMPLE ∧
    (naturalCalc (weightedScoreOf "hello" none 100 cfgW) cfgW.tierBoundaries).2.1 < 1/20 ∧
    ((calculateTierWithHysteresis (weightedScoreOf "hello" none 100 cfgW)
        cfgW.tierBoundaries (historyFor (some "fp") histW) (1/20)).tier = some Tier.SIMPLE ∧
      (classifyByRules "hello" none 100 cfgW (some "fp") histW false).1.tier
        = (if calibrateConfidence (1/20) cfgW.confidenceSteepness
              < ((cfgW.confidenceThreshold : ℚ) : ℝ) then none else some Tier.SIMPLE)) :=
  ⟨by decide, by decide, by decide, by decide,
   hysteresis_fuzzy_keeps_prior "hello" none 100 cfgW (some "fp") histW false
     Tier.SIMPLE (by decide) (by decide) (by decide) (by decide)⟩

/-- C2 counterexample — under the default threshold 0.7 and steepness 12 the
claim as stated fails: after a first call records tier SIMPLE for fingerprint
`"fp"`, a second call whose score 0 has natural tier MEDIUM at distance 0
from the boundary (inside the fuzzy region) returns `none` (ambiguous), not
the prior tier SIMPLE: the hysteresis floor distance 0.05 yields confidence
`sigmoid 0.6 ≈ 0.646 < 0.7`. -/
theorem hysteresis_claim_counterexample :
    (getScoreHistory "fp" c2hist1).lastTier = some Tier.SIMPLE ∧
    reasoningCount "hello" cfgC2 < 2 ∧
    (naturalCalc (weightedScoreOf "hello" none 100 cfgC2) cfgC2.tierBoundaries).1 ≠ Tier.SIMPLE ∧
    (naturalCalc (weightedScoreOf "hello" none 100 cfgC2) cfgC2.tierBoundaries).2.1 < 1/20 ∧
    (classifyByRules "hello" none 100 cfgC2 (some "fp") c2hist1 false).1.tier = none := by
  refine ⟨by decide, by decide, by decide, by decide, ?_⟩
  have h := (classify_fuzzy_keep "hello" none 100 cfgC2 (some "fp") c2hist1 false
    Tier.SIMPLE (by decide) (by decide) (by decide) (by decide)).2
  rw [h, if_pos]
  show calibrateConfidence (1/20) cfgC2.confidenceSteepness
      < ((cfgC2.confidenceThreshold : ℚ) : ℝ)
  have hs : cfgC2.confidenceSteepness = 12 := by decide
  have hθ : cfgC2.confidenceThreshold = (7 : ℚ)/10 := by decide
  rw [hs, hθ]
  exact sigmoid_small_lt_seven_tenths

/-- C6 — Whenever the estimated token count
`ceil((len(system) + 1 + len(prompt)) / 4)` exceeds
`overrides.maxTokensForceComplex`, `route` returns tier COMPLEX with
confidence 0.95, for every cache state, history, adaptive weight vector,
health view and flag combination. -/
theorem route_large_context_forces_complex
    (p : String) (sys : Option String) (maxOut : ℕ) (opts : RouterOptions)
    (w : List ℚ) (hb : Tier → List String → Option String) (σ : RouterState)
    (now : ℕ) (rand : Bool)
    (h : opts.config.overrides.maxTokensForceComplex < estTokens p sys) :
    (route p sys maxOut opts w hb σ now rand).1.tier = Tier.COMPLEX ∧
    (route p sys maxOut opts w hb σ now rand).1.confidence = (0.95 : ℝ) := by
  constructor <;>
    · unfold route
      dsimp only []
      rw [if_pos h]
      rfl

/-- Witness for `route_large_context_forces_complex`: prompt `"hello"`
(2 estimated tokens) against a 1-token threshold. -/
theorem route_large_context_forces_complex_witness :
    cfgR6.overrides.maxTokensForceComplex < estTokens "hello" none ∧
    ((route "hello" none 64 optsR6 [1] (fun _ _ => none) emptyRouterState 0 false).1.tier
        = Tier.COMPLEX ∧
     (route "hello" none 64 optsR6 [1] (fun _ _ => none) emptyRouterState 0 false).1.confidence
        = (0.95 : ℝ)) :=
  ⟨by decide,
   route_large_context_forces_complex "hello" none 64 optsR6 [1] (fun _ _ => none)
     emptyRouterState 0 false (by decide)⟩

/-- C1 (amended) — With the cache enabled and a non-expired cached entry
carrying a non-null tier `t` (no large-context override, no structured-output
upgrade), `route` *always* emits the cached tier `t` — independently of
`shouldUseCachedTier`; `shouldUseCachedTier` only controls the confidence:
the emitted confidence is `max(cached.confidence, 0.7)` exactly when adaptive
weighting is on, the fresh tier is non-null, `shouldUseCachedTier(cached,
adjustedScore, freshTier)` holds and the cached tier is non-null
(`routeBoostCond`), and the fresh classifier confidence otherwise. -/
theorem route_cached_tier_always_used
    (p : String) (sys : Option String) (maxOut : ℕ) (opts : RouterOptions)
    (w : List ℚ) (hb : Tier → List String → Option String) (σ : RouterState)
    (now : ℕ) (rand : Bool) (c : CachedScore) (t : Tier)
    (hc : opts.enableCache = true)
    (hget : (ScoreCache.get σ.cache p sys now).1 = some c)
    (ht : c.result.tier = some t)
    (htok : estTokens p sys ≤ opts.config.overrides.maxTokensForceComplex)
    (hstruct : hasStructuredOutputOpt sys = false) :
    (route p sys maxOut opts w hb σ now rand).1.tier = t ∧
    (route p sys maxOut opts w hb σ now rand).1.confidence =
      (if routeBoostCond p sys opts w σ rand c then max c.result.confidence (0.7 : ℝ)
       else (routeRuleResult p sys opts σ rand).confidence) := by
  unfold route routeBoostCond routeAdjScore routeRuleResult
  simp only [hc, if_true]
  rw [hget]
  dsimp only []
  rw [if_neg (not_lt.mpr htok)]
  simp only [hstruct, ht, Option.isSome_some, Bool.true_and, Bool.and_true,
    Bool.false_and, Bool.if_true_left, if_true, Option.some_bind, Option.getD_some]
  constructor
  · rfl
  · rfl

/-- C1 counterexample — the claim "route keeps the cached tier exactly when
`shouldUseCachedTier` returns true; otherwise the decision uses the freshly
classified tier" fails: here the fresh tier is REASONING (reasoning
override), `shouldUseCachedTier` is false (the cached entry sits 0.3 from the
nearest boundary), and yet the emitted decision carries the cached tier
SIMPLE, not REASONING. -/
theorem route_cached_claim_counterexample :
    ((ScoreCache.get σC1.cache "prove why" none 0).1.map (fun e => e.result.tier))
        = some (some Tier.SIMPLE) ∧
    (routeRuleResult "prove why" none optsC1 σC1 false).tier = some Tier.REASONING ∧
    ScoreCache.shouldUseCachedTier σC1.cache.config entryC1
        (routeAdjScore "prove why" none optsC1 [1] σC1 false)
        (routeRuleResult "prove why" none optsC1 σC1 false).tier = false ∧
    (route "prove why" none 64 optsC1 [1] (fun _ _ => none) σC1 0 false).1.tier
        = Tier.SIMPLE := by
  refine ⟨by decide, by decide, by decide, by decide⟩

/-- Witness for `route_cached_tier_always_used` at the `σC1` instance. -/
theorem route_cached_tier_always_used_witness :
    optsC1.enableCache = true ∧
    (ScoreCache.get σC1.cache "prove why" none 0).1 = some entryC1Hit ∧
    entryC1Hit.result.tier = some Tier.SIMPLE ∧
    estTokens "prove why" none ≤ optsC1.config.overrides.maxTokensForceComplex ∧
    hasStructuredOutputOpt none = false ∧
    ((route "prove why" none 64 optsC1 [1] (fun _ _ => none) σC1 0 false).1.tier
        = Tier.SIMPLE ∧
     (route "prove why" none 64 optsC1 [1] (fun _ _ => none) σC1 0 false).1.confidence =
       (if routeBoostCond "prove why" none optsC1 [1] σC1 false entryC1Hit
        then max entryC1Hit.result.confidence (0.7 : ℝ)
        else (routeRuleResult "prove why" none optsC1 σC1 false).confidence)) :=
  ⟨rfl, rfl, rfl, by decide, rfl,
   route_cached_tier_always_used "prove why" none 64 optsC1 [1] (fun _ _ => none)
     σC1 0 false entryC1Hit Tier.SIMPLE rfl rfl rfl (by decide) rfl⟩

/-! ## Association-map lemmas -/

theorem mapGet_eq_none_iff {V : Type} (m : List (String × V)) (k : String) :
    mapGet m k = none ↔ k ∉ keysOf m := by
  simp only [mapGet, Option.map_eq_none', List.find?_eq_none, keysOf, List.mem_map,
    beq_iff_eq, not_exists]
  constructor
  · intro h kv hmk
    exact h kv hmk.1 hmk.2
  · intro h kv hm hk
    exact h kv ⟨hm, hk⟩

theorem mapGet_isSome_iff {V : Type} (m : List (String × V)) (k : String) :
    (mapGet m k).isSome ↔ k ∈ keysOf m := by
  rcases ho : mapGet m k with _ | v
  · simp only [Option.isSome_none, Bool.false_eq_true, false_iff]
    exact (mapGet_eq_none_iff m k).mp ho
  · simp only [Option.isSome_some, true_iff]
    by_contra hk
    rw [← mapGet_eq_none_iff m k] at hk
    rw [ho] at hk
    exact Option.some_ne_none v hk

theorem anyKey_iff {V : Type} (m : List (String × V)) (k : String) :
    (m.any (fun kv => kv.1 == k)) = true ↔ k ∈ keysOf m := by
  simp only [List.any_eq_true, beq_iff_eq, keysOf, List.mem_map]

theorem keysOf_mapSet_mem {V : Type} (m : List (String × V)) (k : String) (v : V)
    (h : k ∈ keysOf m) : keysOf (mapSet m k v) = keysOf m := by
  unfold mapSet
  rw [if_pos ((anyKey_iff m k).mpr h)]
  unfold keysOf
  rw [List.map_map]
  refine List.map_congr_left ?_
  intro kv _
  by_cases hk : kv.1 = k
  · simp [hk]
  · simp [hk]

theorem keysOf_mapSet_notMem {V : Type} (m : List (String × V)) (k : String) (v : V)
    (h : k ∉ keysOf m) : keysOf (mapSet m k v) = keysOf m ++ [k] := by
  unfold mapSet
  rw [if_neg]
  · simp [keysOf]
  · intro ha
    exact h ((anyKey_iff m k).mp ha)

theorem length_mapSet_mem {V : Type} (m : List (String × V)) (k : String) (v : V)
    (h : k ∈ keysOf m) : (mapSet m k v).length = m.length := by
  unfold mapSet
  rw [if_pos ((anyKey_iff m k).mpr h)]
  exact List.length_map _ _

theorem length_mapSet_notMem {V : Type} (m : List (String × V)) (k : String) (v : V)
    (h : k ∉ keysOf m) : (mapSet m k v).length = m.length + 1 := by
  unfold mapSet
  rw [if_neg]
  · simp
  · intro ha
    exact h ((anyKey_iff m k).mp ha)

theorem keysOf_mapDelete {V : Type} (m : List (String × V)) (k : String) :
    keysOf (mapDelete m k) = (keysOf m).filter (fun x => ¬ x == k) := by
  induction m with
  | nil => rfl
  | cons kv rest ih =>
      by_cases h : kv.1 = k
      · have e1 : mapDelete (kv :: rest) k = mapDelete rest k := by
          unfold mapDelete
          exact List.filter_cons_of_neg (by simp [h])
        have e2 : (keysOf (kv :: rest)).filter (fun x => ¬ x == k)
            = (keysOf rest).filter (fun x => ¬ x == k) := by
          show List.filter _ (kv.1 :: keysOf rest) = _
          exact List.filter_cons_of_neg (by simp [h])
        rw [e1, e2, ih]
      · have e1 : mapDelete (kv :: rest) k = kv :: mapDelete rest k := by
          unfold mapDelete
          exact List.filter_cons_of_pos (by simp [h])
        have e2 : (keysOf (kv :: rest)).filter (fun x => ¬ x == k)
            = kv.1 :: (keysOf rest).filter (fun x => ¬ x == k) := by
          show List.filter _ (kv.1 :: keysOf rest) = _
          exact List.filter_cons_of_pos (by simp [h])
        rw [e1, e2, ← ih]
        rfl

theorem mapDelete_eq_of_notMem {V : Type} (m : List (String × V)) (k : String)
    (h : k ∉ keysOf m) : mapDelete m k = m := by
  unfold mapDelete
  refine List.filter_eq_self.mpr ?_
  intro kv hm
  simp only [beq_iff_eq, decide_not, Bool.not_eq_eq_eq_not, Bool.not_true,
    decide_eq_false_iff_not]
  intro hk
  exact h (List.mem_map.mpr ⟨kv, hm, hk⟩)

theorem length_filter_ne_of_nodup (l : List String) (hl : l.Nodup) (k : String)
    (hk : k ∈ l) : (l.filter (fun x => ¬ x == k)).length = l.length - 1 := by
  induction l with
  | nil => cases hk
  | cons a rest ih =>
      by_cases h : a = k
      · rw [List.filter_cons_of_neg (by simp [h])]
        have hnot : k ∉ rest := by
          have hn := (List.nodup_cons.mp hl).1
          rw [h] at hn
          exact hn
        have hall : rest.filter (fun x => ¬ x == k) = rest := by
          refine List.filter_eq_self.mpr ?_
          intro x hx
          have hne : ¬ x = k := fun he => hnot (he ▸ hx)
          simp [hne]
        rw [hall]
        simp only [List.length_cons]
        omega
      · rw [List.filter_cons_of_pos (by simp [h])]
        have hkr : k ∈ rest := by
          rcases List.mem_cons.mp hk with h1 | h1
          · exact absurd h1.symm h
          · exact h1
        have hpos : 1 ≤ rest.length := List.length_pos.mpr (List.ne_nil_of_mem hkr)
        simp only [List.length_cons]
        rw [ih (List.nodup_cons.mp hl).2 hkr]
        omega

theorem length_mapDelete_of_mem {V : Type} (m : List (String × V)) (k : String)
    (hn : (keysOf m).Nodup) (h : k ∈ keysOf m) :
    (mapDelete m k).length = m.length - 1 := by
  have h1 : (mapDelete m k).length = (keysOf (mapDelete m k)).length :=
    (List.length_map _ _).symm
  rw [h1, keysOf_mapDelete, length_filter_ne_of_nodup _ hn _ h, keysOf,
    List.length_map]

theorem mapGet_mapSet_self {V : Type} (m : List (String × V)) (k : String) (v : V) :
    mapGet (mapSet m k v) k = some v := by
  unfold mapSet
  by_cases h : (m.any (fun kv => kv.1 == k)) = true
  · rw [if_pos h]
    have hk : k ∈ keysOf m := (anyKey_iff m k).mp h
    clear h
    induction m with
    | nil => cases hk
    | cons kv rest ih =>
        by_cases hh : kv.1 = k
        · simp [mapGet, List.find?, hh]
        · rcases List.mem_cons.mp hk with he | he
          · exact absurd he.symm hh
          · simp only [List.map_cons, mapGet, List.find?]
            rw [show ((if kv.1 == k then (k, v) else kv).1 == k) = false by simp [hh]]
            exact ih he
  · rw [if_neg h]
    have hk : k ∉ keysOf m := fun hm => h ((anyKey_iff m k).mpr hm)
    clear h
    induction m with
    | nil => simp [mapGet, List.find?]
    | cons kv rest ih =>
        have h1 : ¬ kv.1 = k := by
          intro he
          exact hk (List.mem_map.mpr ⟨kv, List.mem_cons_self _ _, he⟩)
        have h2 : k ∉ keysOf rest := by
          intro hm
          rcases List.mem_map.mp hm with ⟨x, hx, he⟩
          exact hk (List.mem_map.mpr ⟨x, List.mem_cons_of_mem _ hx, he⟩)
        simp only [List.cons_append, mapGet, List.find?]
        rw [show (kv.1 == k) = false by simp [h1]]
        exact ih h2

theorem mapGet_cons {V : Type} (kv : String × V) (rest : List (String × V))
    (k' : String) :
    mapGet (kv :: rest) k' = if kv.1 = k' then some kv.2 else mapGet rest k' := by
  by_cases hv : kv.1 = k'
  · rw [if_pos hv]
    unfold mapGet
    have hp : ((fun kv : String × V => kv.1 == k') kv) = true := by simp [hv]
    rw [List.find?_cons_of_pos (p := fun kv : String × V => kv.1 == k') (a := kv) _ hp]
    rfl
  · rw [if_neg hv]
    unfold mapGet
    have hp : ¬ ((fun kv : String × V => kv.1 == k') kv) = true := by simp [hv]
    rw [List.find?_cons_of_neg (p := fun kv : String × V => kv.1 == k') (a := kv) _ hp]

theorem mapGet_mapSet_ne {V : Type} (m : List (String × V)) (k k' : String) (v : V)
    (h : ¬ k' = k) : mapGet (mapSet m k v) k' = mapGet m k' := by
  unfold mapSet
  by_cases hg : (m.any (fun kv => kv.1 == k)) = true
  · rw [if_pos hg]
    clear hg
    induction m with
    | nil => rfl
    | cons kv rest ih =>
        simp only [List.map_cons]
        rw [mapGet_cons, mapGet_cons]
        by_cases hh : kv.1 = k
        · have e : (if (kv.1 == k) = true then (k, v) else kv) = (k, v) := by
            simp [hh]
          rw [e, if_neg (fun he => h he.symm), if_neg (fun he => h (hh ▸ he).symm)]
          exact ih
        · have e : (if (kv.1 == k) = true then (k, v) else kv) = kv := by
            simp [hh]
          rw [e]
          by_cases hv : kv.1 = k'
          · rw [if_pos hv, if_pos hv]
          · rw [if_neg hv, if_neg hv]
            exact ih
  · rw [if_neg hg]
    clear hg
    induction m with
    | nil =>
        show mapGet [(k, v)] k' = mapGet [] k'
        rw [mapGet_cons, if_neg (fun he => h he.symm)]
    | cons kv rest ih =>
        show mapGet (kv :: (rest ++ [(k, v)])) k' = _
        rw [mapGet_cons, mapGet_cons]
        by_cases hv : kv.1 = k'
        · rw [if_pos hv, if_pos hv]
        · rw [if_neg hv, if_neg hv]
          exact ih

theorem mapGet_mapDelete_ne {V : Type} (m : List (String × V)) (k k' : String)
    (h : ¬ k' = k) : mapGet (mapDelete m k) k' = mapGet m k' := by
  induction m with
  | nil => rfl
  | cons kv rest ih =>
      by_cases hh : kv.1 = k
      · have e1 : mapDelete (kv :: rest) k = mapDelete rest k := by
          unfold mapDelete
          exact List.filter_cons_of_neg (by simp [hh])
        rw [e1, mapGet_cons, if_neg (fun he => h (hh ▸ he).symm)]
        exact ih
      · have e1 : mapDelete (kv :: rest) k = kv :: mapDelete rest k := by
          unfold mapDelete
          exact List.filter_cons_of_pos (by simp [hh])
        rw [e1, mapGet_cons, mapGet_cons]
        by_cases hv : kv.1 = k'
        · rw [if_pos hv, if_pos hv]
        · rw [if_neg hv, if_neg hv]
          exact ih

theorem mapGet_mapDelete_self {V : Type} (m : List (String × V)) (k : String) :
    mapGet (mapDelete m k) k = none := by
  rw [mapGet_eq_none_iff, keysOf_mapDelete]
  intro hm
  rcases List.mem_filter.mp hm with ⟨_, hf⟩
  simp at hf

theorem generateFingerprint_ne_empty (p : String) (s : Option String) :
    ¬ generateFingerprint p s = "" := by
  intro h
  have hl := congrArg String.length h
  simp only [generateFingerprint, String.length_append] at hl
  have h1 : ("|" : String).length = 1 := rfl
  have h0 : ("" : String).length = 0 := rfl
  simp only [h1, h0] at hl
  omega

theorem contains_iff_mem (l : List String) (a : String) :
    l.contains a = true ↔ a ∈ l := by
  induction l with
  | nil => simp [List.contains]
  | cons x rest ih =>
      simp only [List.contains, List.elem_cons, List.mem_cons]
      by_cases hx : a = x
      · simp [hx]
      · rw [show (a == x) = false by simp [hx]]
        simp only [List.contains] at ih
        rw [ih]
        constructor
        · exact Or.inr
        · intro hc
          rcases hc with hc | hc
          · exact absurd hc hx
          · exact hc

theorem pair_eq_of_nodup_keys {V : Type} (m : List (String × V))
    (hn : (keysOf m).Nodup) (kv1 kv2 : String × V) (h1 : kv1 ∈ m) (h2 : kv2 ∈ m)
    (hk : kv1.1 = kv2.1) : kv1 = kv2 :=
  List.inj_on_of_nodup_map hn h1 h2 hk

theorem mem_foldl_dedup {α : Type} [DecidableEq α] (l : List α) :
    ∀ (acc : List α) (x : α),
      x ∈ l.foldl (fun acc t => if t ∈ acc then acc else acc ++ [t]) acc ↔
        x ∈ acc ∨ x ∈ l := by
  induction l with
  | nil => intro acc x; simp
  | cons t rest ih =>
      intro acc x
      simp only [List.foldl_cons]
      by_cases ht : t ∈ acc
      · rw [if_pos ht, ih]
        constructor
        · intro hc
          rcases hc with hc | hc
          · exact Or.inl hc
          · exact Or.inr (List.mem_cons_of_mem _ hc)
        · intro hc
          rcases hc with hc | hc
          · exact Or.inl hc
          · rcases List.mem_cons.mp hc with hc | hc
            · exact Or.inl (hc ▸ ht)
            · exact Or.inr hc
      · rw [if_neg ht, ih]
        simp only [List.mem_append, List.mem_singleton, List.mem_cons]
        tauto

theorem mem_dedupKeepFirst {α : Type} [DecidableEq α] (l : List α) (x : α) :
    x ∈ ScoreCache.dedupKeepFirst l ↔ x ∈ l := by
  unfold ScoreCache.dedupKeepFirst
  rw [mem_foldl_dedup]
  simp

theorem two_le_length_of_distinct {α : Type} (l : List α) (a b : α)
    (ha : a ∈ l) (hb : b ∈ l) (hne : ¬ a = b) : 2 ≤ l.length := by
  match l with
  | [] => cases ha
  | [x] =>
      rcases List.mem_singleton.mp ha with rfl
      rcases List.mem_singleton.mp hb with rfl
      exact absurd rfl hne
  | x :: y :: rest => simp only [List.length_cons]; omega

theorem foldl_argmax (f : Tier → ℕ) (l : List Tier) :
    ∀ (b : Tier), ∃ m,
      l.foldl (fun best t =>
        match best with
        | none => some t
        | some c => if f c < f t then some t else some c) (some b) = some m ∧
      (m = b ∨ m ∈ l) ∧ f b ≤ f m ∧ ∀ t ∈ l, f t ≤ f m := by
  induction l with
  | nil =>
      intro b
      exact ⟨b, rfl, Or.inl rfl, le_refl _, by intro t ht; cases ht⟩
  | cons t rest ih =>
      intro b
      simp only [List.foldl_cons]
      by_cases hlt : f b < f t
      · rw [if_pos hlt]
        rcases ih t with ⟨m, hm, hmem, hle, hall⟩
        refine ⟨m, hm, ?_, le_of_lt (lt_of_lt_of_le hlt hle), ?_⟩
        · rcases hmem with hmem | hmem
          · exact Or.inr (hmem ▸ List.mem_cons_self _ _)
          · exact Or.inr (List.mem_cons_of_mem _ hmem)
        · intro u hu
          rcases List.mem_cons.mp hu with hu | hu
          · exact hu ▸ hle
          · exact hall u hu
      · rw [if_neg hlt]
        rcases ih b with ⟨m, hm, hmem, hle, hall⟩
        refine ⟨m, hm, ?_, hle, ?_⟩
        · rcases hmem with hmem | hmem
          · exact Or.inl hmem
          · exact Or.inr (List.mem_cons_of_mem _ hmem)
        · intro u hu
          rcases List.mem_cons.mp hu with hu | hu
          · exact hu ▸ (le_trans (not_lt.mp hlt) hle)
          · exact hall u hu

theorem jitterMode_argmax (recent : List Tier) (d : Tier) (ds : List Tier)
    (hd : ScoreCache.dedupKeepFirst recent = d :: ds) :
    ∃ m, ScoreCache.jitterMode recent = some m ∧ m ∈ recent ∧
      ∀ t ∈ recent, recent.count t ≤ recent.count m := by
  unfold ScoreCache.jitterMode
  rw [hd]
  simp only [List.foldl_cons]
  rcases foldl_argmax (fun t => recent.count t) ds d with ⟨m, hm, hmem, _, hall⟩
  refine ⟨m, hm, ?_, ?_⟩
  · have hmd : m ∈ d :: ds := by
      rcases hmem with hmem | hmem
      · exact hmem ▸ List.mem_cons_self _ _
      · exact List.mem_cons_of_mem _ hmem
    rw [← hd] at hmd
    exact (mem_dedupKeepFirst recent m).mp hmd
  · intro t ht
    have htd : t ∈ d :: ds := by
      rw [← hd]
      exact (mem_dedupKeepFirst recent t).mpr ht
    rcases List.mem_cons.mp htd with hu | hu
    · subst hu
      rcases hmem with hmem | hmem
      · exact le_of_eq (congrArg recent.count hmem.symm)
      · rcases foldl_argmax (fun t => recent.count t) ds t with ⟨m2, hm2, _, hle2, _⟩
        rw [hm] at hm2
        exact (Option.some_inj.mp hm2) ▸ hle2
    · exact hall t hu

theorem inv_delete_entry (σ : CacheState) (key : String) (h : CacheInv σ) :
    CacheInv { σ with cache := mapDelete σ.cache key,
                      accessOrder := σ.accessOrder.erase key } := by
  obtain ⟨h1, h2, h3, h4, h5, h6⟩ := h
  refine ⟨h1.erase key, ?_, ?_, ?_, ?_, ?_⟩
  · show (keysOf (mapDelete σ.cache key)).Nodup
    rw [keysOf_mapDelete]
    exact h2.filter _
  · show keysOf (mapDelete σ.cache key) ⊆ σ.accessOrder.erase key
    intro x hx
    rw [keysOf_mapDelete] at hx
    have hx2 := List.mem_filter.mp hx
    have hxk : ¬ x = key := by simpa using hx2.2
    exact (List.mem_erase_of_ne hxk).mpr (h3 hx2.1)
  · show σ.accessOrder.erase key ⊆ keysOf (mapDelete σ.cache key)
    intro x hx
    have hx2 := (h1.mem_erase_iff).mp hx
    rw [keysOf_mapDelete]
    exact List.mem_filter.mpr ⟨h4 hx2.2, by simp [hx2.1]⟩
  · intro k hk
    exact h5 k (List.erase_subset _ _ hk)
  · show (mapDelete σ.cache key).length ≤ σ.config.maxSize
    exact le_trans (List.length_filter_le _ _) h6

theorem inv_touch (σ : CacheState) (key : String) (c : CachedScore) (h : CacheInv σ)
    (hk : key ∈ keysOf σ.cache) :
    CacheInv { σ with cache := mapSet σ.cache key c,
                      accessOrder := ScoreCache.updAO σ.accessOrder key } := by
  obtain ⟨h1, h2, h3, h4, h5, h6⟩ := h
  have hkeys : keysOf (mapSet σ.cache key c) = keysOf σ.cache :=
    keysOf_mapSet_mem _ _ _ hk
  have hka : key ∈ σ.accessOrder := h3 hk
  have hknil : ¬ key = "" := h5 key hka
  refine ⟨?_, ?_, ?_, ?_, ?_, ?_⟩
  · show (ScoreCache.updAO σ.accessOrder key).Nodup
    unfold ScoreCache.updAO
    refine (h1.erase key).append (List.nodup_singleton key) ?_
    intro x hx hx2
    rw [List.mem_singleton] at hx2
    subst hx2
    exact ((h1.mem_erase_iff).mp hx).1 rfl
  · show (keysOf (mapSet σ.cache key c)).Nodup
    rw [hkeys]
    exact h2
  · show keysOf (mapSet σ.cache key c) ⊆ ScoreCache.updAO σ.accessOrder key
    intro x hx
    rw [hkeys] at hx
    unfold ScoreCache.updAO
    by_cases hxk : x = key
    · exact List.mem_append.mpr (Or.inr (hxk ▸ List.mem_singleton_self key))
    · exact List.mem_append.mpr (Or.inl ((List.mem_erase_of_ne hxk).mpr (h3 hx)))
  · show ScoreCache.updAO σ.accessOrder key ⊆ keysOf (mapSet σ.cache key c)
    intro x hx
    unfold ScoreCache.updAO at hx
    rw [hkeys]
    rcases List.mem_append.mp hx with hxl | hxr
    · exact h4 (List.erase_subset _ _ hxl)
    · rw [List.mem_singleton] at hxr
      exact hxr ▸ hk
  · intro k hkk
    unfold ScoreCache.updAO at hkk
    rcases List.mem_append.mp hkk with hxl | hxr
    · exact h5 k (List.erase_subset _ _ hxl)
    · rw [List.mem_singleton] at hxr
      exact hxr ▸ hknil
  · show (mapSet σ.cache key c).length ≤ σ.config.maxSize
    rw [length_mapSet_mem _ _ _ hk]
    exact h6

theorem inv_insert (σ : CacheState) (key : String) (c : CachedScore) (h : CacheInv σ)
    (hk : ¬ key ∈ keysOf σ.cache) (hke : ¬ key = "")
    (hlen : σ.cache.length + 1 ≤ σ.config.maxSize) :
    CacheInv { σ with cache := mapSet σ.cache key c,
                      accessOrder := ScoreCache.updAO σ.accessOrder key } := by
  obtain ⟨h1, h2, h3, h4, h5, h6⟩ := h
  have hka : ¬ key ∈ σ.accessOrder := fun hx => hk (h4 hx)
  have herase : σ.accessOrder.erase key = σ.accessOrder := List.erase_of_not_mem hka
  have hkeys : keysOf (mapSet σ.cache key c) = keysOf σ.cache ++ [key] :=
    keysOf_mapSet_notMem _ _ _ hk
  refine ⟨?_, ?_, ?_, ?_, ?_, ?_⟩
  · show (ScoreCache.updAO σ.accessOrder key).Nodup
    unfold ScoreCache.updAO
    rw [herase]
    refine h1.append (List.nodup_singleton key) ?_
    intro x hx hx2
    rw [List.mem_singleton] at hx2
    exact hka (hx2 ▸ hx)
  · show (keysOf (mapSet σ.cache key c)).Nodup
    rw [hkeys]
    refine h2.append (List.nodup_singleton key) ?_
    intro x hx hx2
    rw [List.mem_singleton] at hx2
    exact hk (hx2 ▸ hx)
  · show keysOf (mapSet σ.cache key c) ⊆ ScoreCache.updAO σ.accessOrder key
    intro x hx
    rw [hkeys] at hx
    unfold ScoreCache.updAO
    rw [herase]
    rcases List.mem_append.mp hx with hxl | hxr
    · exact List.mem_append.mpr (Or.inl (h3 hxl))
    · exact List.mem_append.mpr (Or.inr hxr)
  · show ScoreCache.updAO σ.accessOrder key ⊆ keysOf (mapSet σ.cache key c)
    intro x hx
    unfold ScoreCache.updAO at hx
    rw [herase] at hx
    rw [hkeys]
    rcases List.mem_append.mp hx with hxl | hxr
    · exact List.mem_append.mpr (Or.inl (h4 hxl))
    · exact List.mem_append.mpr (Or.inr hxr)
  · intro k hkk
    unfold ScoreCache.updAO at hkk
    rw [herase] at hkk
    rcases List.mem_append.mp hkk with hxl | hxr
    · exact h5 k hxl
    · rw [List.mem_singleton] at hxr
      exact hxr ▸ hke
  · show (mapSet σ.cache key c).length ≤ σ.config.maxSize
    rw [length_mapSet_notMem _ _ _ hk]
    exact hlen

theorem inv_evict (σ : CacheState) (h : CacheInv σ) :
    CacheInv (ScoreCache.evictLRU σ) := by
  obtain ⟨h1, h2, h3, h4, h5, h6⟩ := h
  unfold ScoreCache.evictLRU
  rcases hao : σ.accessOrder with _ | ⟨o, rest⟩
  · exact ⟨h1, h2, h3, h4, h5, h6⟩
  · have ho : ¬ o = "" := h5 o (hao ▸ List.mem_cons_self o rest)
    have h1' : o ∉ rest ∧ rest.Nodup := List.nodup_cons.mp (hao ▸ h1)
    dsimp only []
    rw [if_neg ho]
    refine ⟨h1'.2, ?_, ?_, ?_, ?_, ?_⟩
    · show (keysOf (mapDelete σ.cache o)).Nodup
      rw [keysOf_mapDelete]
      exact h2.filter _
    · show keysOf (mapDelete σ.cache o) ⊆ rest
      intro x hx
      rw [keysOf_mapDelete] at hx
      have hx2 := List.mem_filter.mp hx
      have hxo : ¬ x = o := by simpa using hx2.2
      have hxa : x ∈ σ.accessOrder := h3 hx2.1
      rw [hao] at hxa
      rcases List.mem_cons.mp hxa with he | he
      · exact absurd he hxo
      · exact he
    · show rest ⊆ keysOf (mapDelete σ.cache o)
      intro x hx
      have hxa : x ∈ σ.accessOrder := hao ▸ List.mem_cons_of_mem o hx
      have hxo : ¬ x = o := fun he => h1'.1 (he ▸ hx)
      rw [keysOf_mapDelete]
      exact List.mem_filter.mpr ⟨h4 hxa, by simp [hxo]⟩
    · intro k hk
      exact h5 k (hao ▸ List.mem_cons_of_mem o hk)
    · show (mapDelete σ.cache o).length ≤ σ.config.maxSize
      exact le_trans (List.length_filter_le _ _) h6

theorem evict_length (σ : CacheState) (h : CacheInv σ) (hne : ¬ σ.cache = []) :
    (ScoreCache.evictLRU σ).cache.length = σ.cache.length - 1 := by
  obtain ⟨h1, h2, h3, h4, h5, h6⟩ := h
  obtain ⟨kv, hkv⟩ := List.exists_mem_of_ne_nil σ.cache hne
  have hkm : kv.1 ∈ keysOf σ.cache := List.mem_map.mpr ⟨kv, hkv, rfl⟩
  have hka : kv.1 ∈ σ.accessOrder := h3 hkm
  rcases hao : σ.accessOrder with _ | ⟨o, rest⟩
  · rw [hao] at hka
    cases hka
  · have ho : ¬ o = "" := h5 o (hao ▸ List.mem_cons_self o rest)
    have hom : o ∈ keysOf σ.cache := h4 (hao ▸ List.mem_cons_self o rest)
    unfold ScoreCache.evictLRU
    rw [hao]
    dsimp only []
    rw [if_neg ho]
    show (mapDelete σ.cache o).length = σ.cache.length - 1
    exact length_mapDelete_of_mem _ _ h2 hom

theorem evict_config (σ : CacheState) :
    (ScoreCache.evictLRU σ).config = σ.config := by
  unfold ScoreCache.evictLRU
  rcases σ.accessOrder with _ | ⟨o, rest⟩
  · rfl
  · dsimp only []
    by_cases ho : o = ""
    · rw [if_pos ho]
    · rw [if_neg ho]

theorem evict_cache_cases (σ : CacheState) :
    (ScoreCache.evictLRU σ).cache = σ.cache ∨
      ∃ o, (ScoreCache.evictLRU σ).cache = mapDelete σ.cache o := by
  unfold ScoreCache.evictLRU
  rcases σ.accessOrder with _ | ⟨o, rest⟩
  · exact Or.inl rfl
  · dsimp only []
    by_cases ho : o = ""
    · rw [if_pos ho]
      exact Or.inl rfl
    · rw [if_neg ho]
      exact Or.inr ⟨o, rfl⟩

theorem cleanup_eq (σ : CacheState) (now : ℕ) :
    ScoreCache.cleanup σ now = { σ with
      cache := σ.cache.filter (fun kv => ¬ ScoreCache.expiredAt σ.config now kv.2),
      accessOrder := σ.accessOrder.filter
        (fun k => ¬ (expiredKeysOf σ now).contains k),
      jitterTracker := σ.jitterTracker.filter
        (fun kv => ¬ (expiredKeysOf σ now).contains kv.1),
      jitterLocks := σ.jitterLocks.filter
        (fun kv => ¬ (expiredKeysOf σ now).contains kv.1) } := rfl

theorem inv_cleanup (σ : CacheState) (now : ℕ) (h : CacheInv σ) :
    CacheInv (ScoreCache.cleanup σ now) := by
  obtain ⟨h1, h2, h3, h4, h5, h6⟩ := h
  rw [cleanup_eq]
  refine ⟨h1.filter _, ?_, ?_, ?_, ?_, ?_⟩
  · show (keysOf (σ.cache.filter _)).Nodup
    exact List.Nodup.sublist ((List.filter_sublist _).map Prod.fst) h2
  · intro x hx
    obtain ⟨kv, hkvf, hkx⟩ := List.mem_map.mp hx
    obtain ⟨hkvc, hp⟩ := List.mem_filter.mp hkvf
    have hnexp : ¬ ScoreCache.expiredAt σ.config now kv.2 = true := by simpa using hp
    refine List.mem_filter.mpr ⟨h3 (List.mem_map.mpr ⟨kv, hkvc, hkx⟩), ?_⟩
    simp only [decide_eq_true_eq]
    intro hcont
    rw [contains_iff_mem] at hcont
    obtain ⟨kv2, hkv2f, hk2x⟩ := List.mem_map.mp hcont
    obtain ⟨hkv2c, hp2⟩ := List.mem_filter.mp hkv2f
    have hexp2 : ScoreCache.expiredAt σ.config now kv2.2 = true := by simpa using hp2
    have hkk : kv = kv2 :=
      pair_eq_of_nodup_keys σ.cache h2 kv kv2 hkvc hkv2c (by rw [hkx, hk2x])
    rw [hkk] at hnexp
    exact hnexp hexp2
  · intro x hx
    obtain ⟨hxa, hpa⟩ := List.mem_filter.mp hx
    have hncont : ¬ (expiredKeysOf σ now).contains x = true := by simpa using hpa
    obtain ⟨kv, hkvc, hkx⟩ := List.mem_map.mp (h4 hxa)
    have hnexp : ¬ ScoreCache.expiredAt σ.config now kv.2 = true := by
      intro hexp
      apply hncont
      rw [contains_iff_mem]
      exact List.mem_map.mpr ⟨kv, List.mem_filter.mpr ⟨hkvc, by simpa using hexp⟩, hkx⟩
    exact List.mem_map.mpr ⟨kv, List.mem_filter.mpr ⟨hkvc, by simpa using hnexp⟩, hkx⟩
  · intro k hk
    exact h5 k ((List.filter_sublist _).subset hk)
  · exact le_trans (List.length_filter_le _ _) h6

theorem inv_clear (σ : CacheState) : CacheInv (ScoreCache.clear σ) := by
  refine ⟨List.nodup_nil, List.nodup_nil, ?_, ?_, ?_, ?_⟩
  · intro x hx
    exact absurd hx (List.not_mem_nil x)
  · intro x hx
    exact absurd hx (List.not_mem_nil x)
  · intro k hk
    exact absurd hk (List.not_mem_nil k)
  · exact Nat.zero_le _

theorem inv_init (cfg : ScoreCacheConfig) : CacheInv (ScoreCache.init cfg) := by
  refine ⟨List.nodup_nil, List.nodup_nil, ?_, ?_, ?_, ?_⟩
  · intro x hx
    exact absurd hx (List.not_mem_nil x)
  · intro x hx
    exact absurd hx (List.not_mem_nil x)
  · intro k hk
    exact absurd hk (List.not_mem_nil k)
  · exact Nat.zero_le _

theorem inv_get (σ : CacheState) (p : String) (s : Option String) (now : ℕ)
    (h : CacheInv σ) : CacheInv (ScoreCache.get σ p s now).2 := by
  unfold ScoreCache.get
  dsimp only []
  rcases hc : mapGet σ.cache (getCacheKey p s) with _ | cached
  · dsimp only []
    exact h
  · dsimp only []
    simp only [apply_ite Prod.snd]
    by_cases ht : σ.config.ttlMs < now - cached.timestamp
    · rw [if_pos ht]
      exact inv_delete_entry σ _ h
    · rw [if_neg ht]
      have hk : getCacheKey p s ∈ keysOf σ.cache := by
        rw [← mapGet_isSome_iff, hc]
        rfl
      rcases hl : mapGet σ.jitterLocks (getCacheKey p s) with _ | lt
      · dsimp only []
        exact inv_touch σ _ _ h hk
      · dsimp only []
        simp only [apply_ite Prod.snd, ite_self]
        exact inv_touch σ _ _ h hk

theorem inv_set_shape (σ1 : CacheState) (key : String) (c : CachedScore)
    (h1 : CacheInv σ1) (hms : 1 ≤ σ1.config.maxSize) (hke : ¬ key = "") :
    CacheInv { (if σ1.config.maxSize ≤ σ1.cache.length ∧ (mapGet σ1.cache key).isNone = true
        then ScoreCache.evictLRU σ1 else σ1) with
      cache := mapSet (if σ1.config.maxSize ≤ σ1.cache.length ∧
          (mapGet σ1.cache key).isNone = true
        then ScoreCache.evictLRU σ1 else σ1).cache key c,
      accessOrder := ScoreCache.updAO (if σ1.config.maxSize ≤ σ1.cache.length ∧
          (mapGet σ1.cache key).isNone = true
        then ScoreCache.evictLRU σ1 else σ1).accessOrder key } := by
  by_cases hg : σ1.config.maxSize ≤ σ1.cache.length ∧ (mapGet σ1.cache key).isNone = true
  · rw [if_pos hg]
    obtain ⟨hfull, hnone⟩ := hg
    have hknotin : ¬ key ∈ keysOf σ1.cache := by
      rw [← mapGet_eq_none_iff]
      exact Option.isNone_iff_eq_none.mp hnone
    have hne : ¬ σ1.cache = [] := by
      intro hnil
      rw [hnil] at hfull
      simp only [List.length_nil] at hfull
      omega
    have hinv2 := inv_evict _ h1
    have hlen2 := evict_length _ h1 hne
    have hk2 : ¬ key ∈ keysOf (ScoreCache.evictLRU σ1).cache := by
      rcases evict_cache_cases σ1 with he | ⟨o, he⟩
      · rw [he]
        exact hknotin
      · rw [he, keysOf_mapDelete]
        intro hxm
        exact hknotin (List.mem_filter.mp hxm).1
    have hlen3 : (ScoreCache.evictLRU σ1).cache.length + 1 ≤
        (ScoreCache.evictLRU σ1).config.maxSize := by
      rw [evict_config σ1, hlen2]
      have h6 := h1.2.2.2.2.2
      omega
    exact inv_insert _ key c hinv2 hk2 hke hlen3
  · rw [if_neg hg]
    by_cases hk : key ∈ keysOf σ1.cache
    · exact inv_touch σ1 key c h1 hk
    · have hnone : (mapGet σ1.cache key).isNone = true := by
        rw [Option.isNone_iff_eq_none, mapGet_eq_none_iff]
        exact hk
      have hlt : ¬ σ1.config.maxSize ≤ σ1.cache.length := fun hle => hg ⟨hle, hnone⟩
      exact inv_insert σ1 key c h1 hk hke (by omega)

set_option maxHeartbeats 2000000 in
theorem inv_set (σ : CacheState) (p : String) (s : Option String) (r : ScoringResult)
    (b : TierBoundaries) (sc : ℚ) (now : ℕ) (h : CacheInv σ)
    (hms : 1 ≤ σ.config.maxSize) :
    CacheInv (ScoreCache.set σ p s r b sc now) := by
  have hinv1 : CacheInv { σ with
      jitterTracker := (ScoreCache.trackJitter σ.config σ.jitterTracker σ.jitterLocks
        (getCacheKey p s) r.tier).1,
      jitterLocks := (ScoreCache.trackJitter σ.config σ.jitterTracker σ.jitterLocks
        (getCacheKey p s) r.tier).2 } := h
  exact inv_set_shape _ (getCacheKey p s)
    { result := r, timestamp := now, hitCount := 1,
      lastTier := r.tier.getD Tier.MEDIUM,
      distanceToBoundary := (ScoreCache.calculateBoundaryProximity sc b).1,
      boundaryName := (ScoreCache.calculateBoundaryProximity sc b).2 }
    hinv1 hms (generateFingerprint_ne_empty p s)

theorem config_get (σ : CacheState) (p : String) (s : Option String) (now : ℕ) :
    (ScoreCache.get σ p s now).2.config = σ.config := by
  unfold ScoreCache.get
  dsimp only []
  rcases mapGet σ.cache (getCacheKey p s) with _ | cached
  · rfl
  · dsimp only []
    simp only [apply_ite Prod.snd]
    by_cases ht : σ.config.ttlMs < now - cached.timestamp
    · rw [if_pos ht]
    · rw [if_neg ht]
      rcases mapGet σ.jitterLocks (getCacheKey p s) with _ | lt
      · rfl
      · dsimp only []
        simp only [apply_ite Prod.snd, ite_self]

theorem config_set (σ : CacheState) (p : String) (s : Option String)
    (r : ScoringResult) (b : TierBoundaries) (sc : ℚ) (now : ℕ) :
    (ScoreCache.set σ p s r b sc now).config = σ.config := by
  unfold ScoreCache.set
  dsimp only []
  by_cases hg : σ.config.maxSize ≤ σ.cache.length ∧
      (mapGet σ.cache (getCacheKey p s)).isNone = true
  · rw [if_pos hg]
    exact evict_config _
  · rw [if_neg hg]

theorem config_applyOp (σ : CacheState) (op : CacheOp) :
    (applyCacheOp σ op).config = σ.config := by
  rcases op with ⟨p, s, now⟩ | ⟨p, s, r, b, sc, now⟩ | now | _
  · exact config_get σ p s now
  · exact config_set σ p s r b sc now
  · rfl
  · rfl

theorem inv_applyOp (σ : CacheState) (op : CacheOp) (h : CacheInv σ)
    (hms : 1 ≤ σ.config.maxSize) : CacheInv (applyCacheOp σ op) := by
  rcases op with ⟨p, s, now⟩ | ⟨p, s, r, b, sc, now⟩ | now | _
  · exact inv_get σ p s now h
  · exact inv_set σ p s r b sc now h hms
  · exact inv_cleanup σ now h
  · exact inv_clear σ

theorem inv_runOps (ops : List CacheOp) : ∀ (σ : CacheState), CacheInv σ →
    1 ≤ σ.config.maxSize →
    CacheInv (runCacheOps σ ops) ∧ (runCacheOps σ ops).config = σ.config := by
  induction ops with
  | nil =>
      intro σ h hms
      exact ⟨h, rfl⟩
  | cons op rest ih =>
      intro σ h hms
      have h1 := inv_applyOp σ op h hms
      have hcfg := config_applyOp σ op
      have hms1 : 1 ≤ (applyCacheOp σ op).config.maxSize := by
        rw [hcfg]
        exact hms
      have hr := ih (applyCacheOp σ op) h1 hms1
      exact ⟨hr.1, hr.2.trans hcfg⟩

theorem evict_delete (σ : CacheState) (o : String) (rest : List String)
    (hao : σ.accessOrder = o :: rest) (ho : ¬ o = "") :
    ScoreCache.evictLRU σ = { σ with
      accessOrder := rest,
      cache := mapDelete σ.cache o,
      jitterTracker := mapDelete σ.jitterTracker o,
      jitterLocks := mapDelete σ.jitterLocks o } := by
  unfold ScoreCache.evictLRU
  rw [hao]
  dsimp only []
  rw [if_neg ho]

theorem mapGet_filter_key {V : Type} (m : List (String × V)) (q : String → Bool)
    (k : String) (hq : q k = true) :
    mapGet (m.filter (fun kv => q kv.1)) k = mapGet m k := by
  induction m with
  | nil => rfl
  | cons kv rest ih =>
      by_cases hk : kv.1 = k
      · have hpos : (fun kv : String × V => q kv.1) kv = true := by
          dsimp only []
          rw [hk]
          exact hq
        rw [List.filter_cons_of_pos (p := fun kv : String × V => q kv.1) (a := kv) hpos,
          mapGet_cons, mapGet_cons, if_pos hk, if_pos hk]
      · by_cases hqv : q kv.1 = true
        · have hpos : (fun kv : String × V => q kv.1) kv = true := hqv
          rw [List.filter_cons_of_pos (p := fun kv : String × V => q kv.1) (a := kv) hpos,
            mapGet_cons, mapGet_cons, if_neg hk, if_neg hk]
          exact ih
        · have hneg : ¬ (fun kv : String × V => q kv.1) kv = true := hqv
          rw [List.filter_cons_of_neg (p := fun kv : String × V => q kv.1) (a := kv) hneg,
            mapGet_cons, if_neg hk]
          exact ih

theorem get_locks_untouched (σ : CacheState) (p : String) (s : Option String)
    (now : ℕ) : (ScoreCache.get σ p s now).2.jitterLocks = σ.jitterLocks := by
  unfold ScoreCache.get
  dsimp only []
  rcases mapGet σ.cache (getCacheKey p s) with _ | cached
  · rfl
  · dsimp only []
    simp only [apply_ite Prod.snd]
    by_cases ht : σ.config.ttlMs < now - cached.timestamp
    · rw [if_pos ht]
    · rw [if_neg ht]
      rcases mapGet σ.jitterLocks (getCacheKey p s) with _ | lt
      · rfl
      · dsimp only []
        simp only [apply_ite Prod.snd, ite_self]

theorem trackJitter_locks_mono (cfg : ScoreCacheConfig)
    (jt : List (String × List Tier)) (locks : List (String × Tier)) (key : String)
    (tier : Option Tier) (k : String) (h : (mapGet locks k).isSome = true) :
    (mapGet (ScoreCache.trackJitter cfg jt locks key tier).2 k).isSome = true := by
  unfold ScoreCache.trackJitter
  rcases tier with _ | t
  · exact h
  · dsimp only []
    by_cases h1 : cfg.jitterThreshold ≤ (ScoreCache.pushTier ((mapGet jt key).getD []) t).length
    · rw [if_pos h1]
      by_cases h2 : 2 ≤ (ScoreCache.dedupKeepFirst (ScoreCache.windowOf cfg.jitterThreshold
          (ScoreCache.pushTier ((mapGet jt key).getD []) t))).length
      · rw [if_pos h2]
        rcases hm : ScoreCache.jitterMode (ScoreCache.windowOf cfg.jitterThreshold
            (ScoreCache.pushTier ((mapGet jt key).getD []) t)) with _ | m
        · dsimp only []
          exact h
        · dsimp only []
          by_cases hk : k = key
          · rw [hk, mapGet_mapSet_self]
            rfl
          · rw [mapGet_mapSet_ne _ _ _ _ hk]
            exact h
      · rw [if_neg h2]
        exact h
    · rw [if_neg h1]
      exact h

theorem lock_evict_of_not_mem (σ : CacheState) (k : String)
    (h : (mapGet σ.jitterLocks k).isSome = true) (hno : ¬ k ∈ σ.accessOrder) :
    (mapGet (ScoreCache.evictLRU σ).jitterLocks k).isSome = true := by
  unfold ScoreCache.evictLRU
  rcases hao : σ.accessOrder with _ | ⟨o, rest⟩
  · exact h
  · dsimp only []
    by_cases ho : o = ""
    · rw [if_pos ho]
      exact h
    · rw [if_neg ho]
      have hko : ¬ k = o := fun he => hno (hao ▸ (he ▸ List.mem_cons_self o rest))
      show (mapGet (mapDelete σ.jitterLocks o) k).isSome = true
      rw [mapGet_mapDelete_ne _ _ _ hko]
      exact h

theorem lock_persist_evict (σ : CacheState) (k : String)
    (h : (mapGet σ.jitterLocks k).isSome = true) :
    (mapGet (ScoreCache.evictLRU σ).jitterLocks k).isSome = true ∨
      mapGet (ScoreCache.evictLRU σ).cache k = none := by
  unfold ScoreCache.evictLRU
  rcases σ.accessOrder with _ | ⟨o, rest⟩
  · exact Or.inl h
  · dsimp only []
    by_cases ho : o = ""
    · rw [if_pos ho]
      exact Or.inl h
    · rw [if_neg ho]
      by_cases hk : k = o
      · right
        show mapGet (mapDelete σ.cache o) k = none
        rw [hk]
        exact mapGet_mapDelete_self _ _
      · left
        show (mapGet (mapDelete σ.jitterLocks o) k).isSome = true
        rw [mapGet_mapDelete_ne _ _ _ hk]
        exact h

theorem lock_persist_set (σ : CacheState) (p : String) (s : Option String)
    (r : ScoringResult) (b : TierBoundaries) (sc : ℚ) (now : ℕ) (k : String)
    (hinv : CacheInv σ) (h : (mapGet σ.jitterLocks k).isSome = true) :
    (mapGet (ScoreCache.set σ p s r b sc now).jitterLocks k).isSome = true ∨
      mapGet (ScoreCache.set σ p s r b sc now).cache k = none := by
  have hmono : (mapGet (ScoreCache.trackJitter σ.config σ.jitterTracker σ.jitterLocks
      (getCacheKey p s) r.tier).2 k).isSome = true :=
    trackJitter_locks_mono _ _ _ _ _ _ h
  unfold ScoreCache.set
  dsimp only []
  by_cases hg : σ.config.maxSize ≤ σ.cache.length ∧
      (mapGet σ.cache (getCacheKey p s)).isNone = true
  · rw [if_pos hg]
    by_cases hkk : k = getCacheKey p s
    · left
      have hknotin : ¬ getCacheKey p s ∈ keysOf σ.cache := by
        rw [← mapGet_eq_none_iff]
        exact Option.isNone_iff_eq_none.mp hg.2
      have hno : ¬ k ∈ σ.accessOrder := fun hm => hknotin (hkk ▸ hinv.2.2.2.1 hm)
      exact lock_evict_of_not_mem _ k hmono hno
    · rcases lock_persist_evict { σ with
          jitterTracker := (ScoreCache.trackJitter σ.config σ.jitterTracker
            σ.jitterLocks (getCacheKey p s) r.tier).1,
          jitterLocks := (ScoreCache.trackJitter σ.config σ.jitterTracker
            σ.jitterLocks (getCacheKey p s) r.tier).2 } k hmono with hl | hr
      · exact Or.inl hl
      · right
        show mapGet (mapSet _ (getCacheKey p s) _) k = none
        rw [mapGet_mapSet_ne _ _ _ _ hkk]
        exact hr
  · rw [if_neg hg]
    exact Or.inl hmono

theorem lock_persist_cleanup (σ : CacheState) (now : ℕ) (k : String)
    (hn : (keysOf σ.cache).Nodup) (h : (mapGet σ.jitterLocks k).isSome = true) :
    (mapGet (ScoreCache.cleanup σ now).jitterLocks k).isSome = true ∨
      mapGet (ScoreCache.cleanup σ now).cache k = none := by
  rw [cleanup_eq]
  by_cases hcont : (expiredKeysOf σ now).contains k = true
  · right
    show mapGet (σ.cache.filter _) k = none
    rw [mapGet_eq_none_iff]
    intro hx
    obtain ⟨kv, hkvf, hkx⟩ := List.mem_map.mp hx
    obtain ⟨hkvc, hp⟩ := List.mem_filter.mp hkvf
    have hnexp : ¬ ScoreCache.expiredAt σ.config now kv.2 = true := by simpa using hp
    rw [contains_iff_mem] at hcont
    obtain ⟨kv2, hkv2f, hk2x⟩ := List.mem_map.mp hcont
    obtain ⟨hkv2c, hp2⟩ := List.mem_filter.mp hkv2f
    have hexp2 : ScoreCache.expiredAt σ.config now kv2.2 = true := by simpa using hp2
    have hkk : kv = kv2 :=
      pair_eq_of_nodup_keys σ.cache hn kv kv2 hkvc hkv2c (by rw [hkx, hk2x])
    rw [hkk] at hnexp
    exact hnexp hexp2
  · left
    show (mapGet (σ.jitterLocks.filter
      (fun kv => (fun x => ¬ (expiredKeysOf σ now).contains x) kv.1)) k).isSome = true
    rw [mapGet_filter_key σ.jitterLocks (fun x => ¬ (expiredKeysOf σ now).contains x) k
      (by simp only [decide_eq_true_eq]; exact hcont)]
    exact h

theorem lock_persist_op (σ : CacheState) (op : CacheOp) (k : String)
    (hinv : CacheInv σ) (h : (mapGet σ.jitterLocks k).isSome = true) :
    (mapGet (applyCacheOp σ op).jitterLocks k).isSome = true ∨
      mapGet (applyCacheOp σ op).cache k = none := by
  rcases op with ⟨p, s, now⟩ | ⟨p, s, r, b, sc, now⟩ | now | _
  · left
    show (mapGet (ScoreCache.get σ p s now).2.jitterLocks k).isSome = true
    rw [get_locks_untouched]
    exact h
  · exact lock_persist_set σ p s r b sc now k hinv h
  · exact lock_persist_cleanup σ now k hinv.2.1 h
  · right
    rfl

theorem get_locked (σ : CacheState) (p : String) (s : Option String) (now : ℕ)
    (lt : Tier) (c0 : CachedScore)
    (hlock : mapGet σ.jitterLocks (getCacheKey p s) = some lt)
    (hc : mapGet σ.cache (getCacheKey p s) = some c0)
    (ht : ¬ σ.config.ttlMs < now - c0.timestamp) :
    ∃ c, (ScoreCache.get σ p s now).1 = some c ∧ c.result.tier = some lt ∧
      (¬ c0.result.tier = some lt → (0.7 : ℝ) ≤ c.result.confidence) := by
  unfold ScoreCache.get
  dsimp only []
  rw [hc]
  dsimp only []
  simp only [apply_ite Prod.fst]
  rw [if_neg ht, hlock]
  dsimp only []
  by_cases hd : c0.result.tier = some lt
  · rw [if_neg (not_not_intro hd)]
    refine ⟨_, rfl, hd, ?_⟩
    intro hcon
    exact absurd hd hcon
  · rw [if_pos hd]
    refine ⟨_, rfl, rfl, ?_⟩
    intro hcon
    exact le_max_right _ _

theorem trackJitter_installs (cfg : ScoreCacheConfig)
    (jt : List (String × List Tier)) (locks : List (String × Tier)) (key : String)
    (t : Tier)
    (h1 : cfg.jitterThreshold ≤ (ScoreCache.pushTier ((mapGet jt key).getD []) t).length)
    (h2 : ∃ a ∈ ScoreCache.windowOf cfg.jitterThreshold
        (ScoreCache.pushTier ((mapGet jt key).getD []) t),
      ∃ b ∈ ScoreCache.windowOf cfg.jitterThreshold
        (ScoreCache.pushTier ((mapGet jt key).getD []) t), ¬ a = b) :
    ∃ m, mapGet (ScoreCache.trackJitter cfg jt locks key (some t)).2 key = some m ∧
      m ∈ ScoreCache.windowOf cfg.jitterThreshold
        (ScoreCache.pushTier ((mapGet jt key).getD []) t) ∧
      ∀ u ∈ ScoreCache.windowOf cfg.jitterThreshold
          (ScoreCache.pushTier ((mapGet jt key).getD []) t),
        (ScoreCache.windowOf cfg.jitterThreshold
          (ScoreCache.pushTier ((mapGet jt key).getD []) t)).count u ≤
        (ScoreCache.windowOf cfg.jitterThreshold
          (ScoreCache.pushTier ((mapGet jt key).getD []) t)).count m := by
  obtain ⟨a, ha, b2, hb, hab⟩ := h2
  have hw2 : 2 ≤ (ScoreCache.dedupKeepFirst (ScoreCache.windowOf cfg.jitterThreshold
      (ScoreCache.pushTier ((mapGet jt key).getD []) t))).length :=
    two_le_length_of_distinct _ a b2 ((mem_dedupKeepFirst _ _).mpr ha)
      ((mem_dedupKeepFirst _ _).mpr hb) hab
  rcases hd : ScoreCache.dedupKeepFirst (ScoreCache.windowOf cfg.jitterThreshold
      (ScoreCache.pushTier ((mapGet jt key).getD []) t)) with _ | ⟨d, ds⟩
  · rw [hd] at hw2
    simp at hw2
  · obtain ⟨m, hm, hmem, hall⟩ := jitterMode_argmax _ d ds hd
    refine ⟨m, ?_, hmem, hall⟩
    unfold ScoreCache.trackJitter
    dsimp only []
    rw [if_pos h1, if_pos hw2, hm]
    dsimp only []
    exact mapGet_mapSet_self _ _ _

/-- C7 — Jitter-lock protocol of the score cache.  (i) Installation
(`trackJitter`, score-cache.ts lines 188-219): when the per-key tier history
after the new push is at least `jitterThreshold` long and the
`slice(-jitterThreshold)` window contains two differing tiers, a lock is
installed under the key whose tier lies in the window and whose occurrence
count in the window is maximal.  (ii) Substitution (`get`, lines 60-94): with
a lock in place, a cache hit within the TTL always returns an entry whose
tier equals the locked tier, and if the stored tier differed the returned
confidence is at least `0.7`.  (iii) Persistence: a single `get`, `set`,
`cleanup` or `clear` on an invariant-satisfying state either keeps some
jitter lock for the key or removes the key's cache entry, so the lock
outlives the entry it guards. -/
theorem jitter_lock_protocol :
    (∀ (cfg : ScoreCacheConfig) (jt : List (String × List Tier))
        (locks : List (String × Tier)) (key : String) (t : Tier),
        cfg.jitterThreshold ≤
          (ScoreCache.pushTier ((mapGet jt key).getD []) t).length →
        (∃ a ∈ ScoreCache.windowOf cfg.jitterThreshold
            (ScoreCache.pushTier ((mapGet jt key).getD []) t),
         ∃ b ∈ ScoreCache.windowOf cfg.jitterThreshold
            (ScoreCache.pushTier ((mapGet jt key).getD []) t), ¬ a = b) →
        ∃ m, mapGet (ScoreCache.trackJitter cfg jt locks key (some t)).2 key = some m ∧
          m ∈ ScoreCache.windowOf cfg.jitterThreshold
            (ScoreCache.pushTier ((mapGet jt key).getD []) t) ∧
          ∀ u ∈ ScoreCache.windowOf cfg.jitterThreshold
              (ScoreCache.pushTier ((mapGet jt key).getD []) t),
            (ScoreCache.windowOf cfg.jitterThreshold
              (ScoreCache.pushTier ((mapGet jt key).getD []) t)).count u ≤
            (ScoreCache.windowOf cfg.jitterThreshold
              (ScoreCache.pushTier ((mapGet jt key).getD []) t)).count m) ∧
    (∀ (σ : CacheState) (p : String) (s : Option String) (now : ℕ) (lt : Tier)
        (c0 : CachedScore),
        mapGet σ.jitterLocks (getCacheKey p s) = some lt →
        mapGet σ.cache (getCacheKey p s) = some c0 →
        ¬ σ.config.ttlMs < now - c0.timestamp →
        ∃ c, (ScoreCache.get σ p s now).1 = some c ∧ c.result.tier = some lt ∧
          (¬ c0.result.tier = some lt → (0.7 : ℝ) ≤ c.result.confidence)) ∧
    (∀ (σ : CacheState) (op : CacheOp) (k : String), CacheInv σ →
        (mapGet σ.jitterLocks k).isSome = true →
        (mapGet (applyCacheOp σ op).jitterLocks k).isSome = true ∨
          mapGet (applyCacheOp σ op).cache k = none) := by
  refine ⟨?_, ?_, ?_⟩
  · intro cfg jt locks key t h1 h2
    exact trackJitter_installs cfg jt locks key t h1 h2
  · intro σ p s now lt c0 hlock hc ht
    exact get_locked σ p s now lt c0 hlock hc ht
  · intro σ op k hinv h
    exact lock_persist_op σ op k hinv h

/-- C8 — amended.  (i) Size bound: starting from an empty cache whose
`maxSize` is at least 1, every sequence of `get`/`set`/`cleanup`/`clear`
operations leaves at most `maxSize` stored entries (for `maxSize = 0` the
bound fails, see the counterexample: `set` evicts before checking that the
cache is non-empty, then inserts unconditionally).  (ii) LRU eviction: a
`set` under a fresh key on a full invariant-satisfying cache removes the
entry of the head of the access order — the least recently used key — and
stores the new key. -/
theorem cache_size_bound_lru :
    (∀ (cfg : ScoreCacheConfig), 1 ≤ cfg.maxSize → ∀ (ops : List CacheOp),
        (runCacheOps (ScoreCache.init cfg) ops).cache.length ≤ cfg.maxSize) ∧
    (∀ (σ : CacheState) (p : String) (s : Option String) (r : ScoringResult)
        (b : TierBoundaries) (sc : ℚ) (now : ℕ) (o : String) (rest : List String),
        CacheInv σ →
        σ.config.maxSize ≤ σ.cache.length →
        mapGet σ.cache (getCacheKey p s) = none →
        σ.accessOrder = o :: rest →
        mapGet (ScoreCache.set σ p s r b sc now).cache o = none ∧
          (mapGet (ScoreCache.set σ p s r b sc now).cache
            (getCacheKey p s)).isSome = true) := by
  constructor
  · intro cfg hms ops
    have hr := inv_runOps ops (ScoreCache.init cfg) (inv_init cfg) hms
    have hlen := hr.1.2.2.2.2.2
    rw [hr.2] at hlen
    exact hlen
  · intro σ p s r b sc now o rest hinv hfull hc hao
    have hknotin : ¬ getCacheKey p s ∈ keysOf σ.cache := (mapGet_eq_none_iff _ _).mp hc
    have ho : ¬ o = "" := hinv.2.2.2.2.1 o (hao ▸ List.mem_cons_self o rest)
    have hom : o ∈ keysOf σ.cache := hinv.2.2.2.1 (hao ▸ List.mem_cons_self o rest)
    have honek : ¬ o = getCacheKey p s := fun he => hknotin (he ▸ hom)
    have hguard : σ.config.maxSize ≤ σ.cache.length ∧
        (mapGet σ.cache (getCacheKey p s)).isNone = true :=
      ⟨hfull, by rw [Option.isNone_iff_eq_none]; exact hc⟩
    unfold ScoreCache.set
    dsimp only []
    rw [if_pos hguard]
    rw [evict_delete { σ with
        jitterTracker := (ScoreCache.trackJitter σ.config σ.jitterTracker
          σ.jitterLocks (getCacheKey p s) r.tier).1,
        jitterLocks := (ScoreCache.trackJitter σ.config σ.jitterTracker
          σ.jitterLocks (getCacheKey p s) r.tier).2 } o rest hao ho]
    dsimp only []
    constructor
    · rw [mapGet_mapSet_ne _ _ _ _ honek]
      exact mapGet_mapDelete_self _ _
    · rw [mapGet_mapSet_self]
      rfl

/-- C8 counterexample to the unconditional size claim: with `maxSize = 0`
a single `set` on the empty cache stores one entry — `evictLRU` finds an
empty access order and removes nothing, and the insertion is unconditional —
so the entry count exceeds `maxSize`. -/
theorem cache_size_claim_counterexample :
    cfg0.maxSize <
      (runCacheOps (ScoreCache.init cfg0)
        [CacheOp.set "p" none res0 bounds0 0 0]).cache.length := by
  decide

end RatKernelEval

end ClawRouter
